import Mathlib

/-!
# RetroArch: the Switch audio driver (audio/drivers/switch_audio.c)

A shallow embedding of the driver's operations.  The driver talks to the
system audio service through calls whose code is outside the repository, so
every operation takes the answers of those calls as an explicit argument and
returns, next to its C return value and the session it leaves behind, the
list of external calls it made, in order.

Machine integers are natural numbers; where the C arithmetic can wrap the
embedding reduces modulo the width of the C type (size_t, uint64_t and
ssize_t are 64 bits wide on the AArch64 target, unsigned is 32 bits wide).
A pointer to audio_output_buffer_t is a pool index: the three entries of
swa->buffers are the only objects of that type the driver ever hands to the
service.  RARCH_LOG and RARCH_ERR only print and are left out.
-/

namespace SwitchAudio

/-! ## Constants (switch_audio.c, lines 26-29) -/

/-- static const int sample_rate = 48000 -/
def sample_rate : Nat := 48000

/-- static const int max_num_samples = sample_rate -/
def max_num_samples : Nat := sample_rate

/-- static const int num_channels = 2 -/
def num_channels : Nat := 2

/-- Width of size_t, uint64_t and ssize_t on the target. -/
def size_bits : Nat := 64

/-- Width of unsigned and uint32_t. -/
def unsigned_bits : Nat := 32

/-- Line 29: ((max_num_samples * num_channels * sizeof(uint16_t)) + 0xfff) & ~0xfff,
computed in size_t; the int value ~0xfff converts to 2^64 - 1 - 0xfff. -/
def sample_buffer_size : Nat :=
  (((max_num_samples * num_channels * 2) + 0xfff) % 2 ^ size_bits) &&& (2 ^ size_bits - 1 - 0xfff)

/-- Modelled from the spec: the enumerator PCM_INT16 of the service header, which the
source uses and does not declare ("sample format (signed 16-bit integer)").  No theorem
depends on its numeric value. -/
def PCM_INT16 : Nat := 2

/-! ## Data model (lines 31-42 and the fields of the service types the driver uses) -/

/-- The fields of audio_output_buffer_t the driver reads or writes.  sample_data is the
content of the page region the pointer of that name refers to, byte by offset. -/
structure audio_output_buffer_t where
  sample_data : Nat → Nat
  buffer_size : Nat
  data_size : Nat
  unknown : Nat

/-- The fields of audio_output_t the driver reads. -/
structure audio_output_t where
  sample_rate : Nat
  num_channels : Nat
  sample_format : Nat
deriving DecidableEq

/-- The session, switch_audio_t.  current_buffer is the nullable pointer into buffers. -/
structure switch_audio_t where
  blocking : Bool
  is_paused : Bool
  last_append : Nat
  latency : Nat
  buffers : Fin 3 → audio_output_buffer_t
  current_buffer : Option (Fin 3)
  output : audio_output_t
  event : Nat

/-- One external call as the driver made it, with what it answered.  A status is a
result_t: 0 is success, anything else is failure. -/
inductive call where
  | calloc (ok : Bool)
  | audio_ipc_init (status : Nat)
  | audio_ipc_list_outputs (status : Nat) (num_names : Nat)
  | audio_ipc_open_output (status : Nat)
  | audio_ipc_output_register_buffer_event (status : Nat)
  | alloc_pages (min : Nat) (max : Nat) (ok : Bool)
  | audio_ipc_output_append_buffer (i : Fin 3) (buffer_size : Nat) (data_size : Nat) (status : Nat)
  | audio_ipc_output_get_released_buffer (status : Nat) (num : Nat) (buffer : Option (Fin 3))
  | svcWaitSynchronization (timeout : Nat)
  | svcResetSignal (event : Nat)
  | audio_ipc_output_start (status : Nat)
  | audio_ipc_output_stop (status : Nat)
  | audio_ipc_output_close
  | audio_ipc_finalize
  | free
  | memcpy (i : Fin 3) (offset : Nat) (n : Nat)
  | svcGetSystemTick (tick : Nat)
deriving DecidableEq

/-- What an operation leaves behind: its C return value, the session afterwards (none
for a null session) and the external calls it made. -/
structure result (α : Type) where
  ret : α
  swa : Option switch_audio_t
  trace : List call

/-! ## switch_audio_write (lines 44-109) -/

/-- What one audio_ipc_output_get_released_buffer call answers: its status, and the
values it leaves in *num and in swa->current_buffer.  Both out-parameters hold 0 / NULL
before every call the driver makes, so a call that writes nothing answers 0 and none. -/
structure released_buffer_response where
  status : Nat
  num : Nat
  buffer : Option (Fin 3)

/-- The answers of the external calls of one switch_audio_write: released k is the answer
of the k-th released-buffer query of the call (counted from 0), append_status that of
audio_ipc_output_append_buffer, tick that of svcGetSystemTick. -/
structure write_env where
  released : Nat → released_buffer_response
  append_status : Nat
  tick : Nat

/-- Where lines 52-89 leave the call: returned early, or holding buffer b. -/
inductive acquired where
  | returned (ret : Int) (swa : switch_audio_t) (trace : List call)
  | holding (b : Fin 3) (swa : switch_audio_t) (trace : List call)

/-- The k-th released-buffer query of a write, as a call with its answer. -/
def released_buffer_call (env : write_env) (k : Nat) : call :=
  call.audio_ipc_output_get_released_buffer (env.released k).status (env.released k).num
    (env.released k).buffer

/-- The three calls of one pass through the body of the while loop (lines 76-79),
the query being the k-th of the write. -/
def wait_cycle (env : write_env) (event : Nat) (k : Nat) : List call :=
  [call.svcWaitSynchronization 33333333, call.svcResetSignal event, released_buffer_call env k]

/-- The calls of m consecutive passes through the loop body, the first query being the
k-th of the write. -/
def wait_cycles (env : write_env) (event : Nat) : Nat → Nat → List call
  | _, 0 => []
  | k, m + 1 => wait_cycle env event k ++ wait_cycles env event (k + 1) m

/-- Lines 71-81: while (swa->current_buffer == NULL) wait, reset, query again; a failing
query returns -1.  The loop has no iteration cap; fuel bounds the passes the embedding
follows and none is the answer when it runs out. -/
def wait_loop (env : write_env) : Nat → Nat → switch_audio_t → List call → Option acquired
  | 0, _, swa, tr =>
    match swa.current_buffer with
    | some b => some (acquired.holding b swa tr)
    | none => none
  | fuel + 1, k, swa, tr =>
    match swa.current_buffer with
    | some b => some (acquired.holding b swa tr)
    | none =>
      if (env.released k).status ≠ 0 then
        some (acquired.returned (-1) { swa with current_buffer := (env.released k).buffer }
          (tr ++ wait_cycle env swa.event k))
      else
        wait_loop env fuel (k + 1) { swa with current_buffer := (env.released k).buffer }
          (tr ++ wait_cycle env swa.event k)

/-- Line 88: swa->current_buffer->data_size = 0. -/
def reset_data_size (swa : switch_audio_t) (b : Fin 3) : switch_audio_t :=
  { swa with buffers := Function.update swa.buffers b { swa.buffers b with data_size := 0 } }

/-- Line 88 applied to the outcome of the acquisition, when it holds a buffer. -/
def acquired.reset : acquired → acquired
  | acquired.returned v swa tr => acquired.returned v swa tr
  | acquired.holding b swa tr => acquired.holding b (reset_data_size swa b) tr

/-- Lines 52-89: with a buffer checked out nothing happens; otherwise query the service,
drop the handle when num < 1, and without a buffer either wait (blocking) or return 0. -/
def acquire (env : write_env) (fuel : Nat) (swa : switch_audio_t) : Option acquired :=
  match swa.current_buffer with
  | some b => some (acquired.holding b swa [])
  | none =>
    let r := env.released 0
    let tr := [released_buffer_call env 0]
    if r.status ≠ 0 then
      some (acquired.returned (-1) { swa with current_buffer := r.buffer } tr)
    else
      let swa1 : switch_audio_t :=
        { swa with current_buffer := if r.num < 1 then none else r.buffer }
      match swa1.current_buffer with
      | some b => some (acquired.holding b (reset_data_size swa1 b) tr)
      | none =>
        if swa1.blocking then
          (wait_loop env fuel 1 swa1 tr).map acquired.reset
        else
          some (acquired.returned 0 swa1 tr)

/-- Conversion of a size_t value to ssize_t (the return statement of line 108). -/
def to_ssize_t (n : Nat) : Int :=
  if n % 2 ^ size_bits < 2 ^ (size_bits - 1) then ((n % 2 ^ size_bits : Nat) : Int)
  else ((n % 2 ^ size_bits : Nat) : Int) - 2 ^ size_bits

/-- The flush threshold of line 98, (48000*swa->latency)/1000: the product is computed in
unsigned, 32 bits wide. -/
def flush_threshold (latency : Nat) : Nat :=
  (48000 * latency % 2 ^ unsigned_bits) / 1000

/-- Line 91-92: the number of bytes copied, size clamped to
sample_buffer_size - data_size (a size_t subtraction). -/
def clamp_to_write (size : Nat) (data_size : Nat) : Nat :=
  if size > (sample_buffer_size + 2 ^ size_bits - data_size) % 2 ^ size_bits then
    (sample_buffer_size + 2 ^ size_bits - data_size) % 2 ^ size_bits
  else size

/-- Lines 94-96 on the buffer itself: memcpy of to_write bytes of buf to offset data_size,
data_size += to_write, buffer_size = sample_buffer_size. -/
def fill_buffer (cur : audio_output_buffer_t) (buf : Nat → Nat) (to_write : Nat) :
    audio_output_buffer_t :=
  { cur with
    sample_data := fun k =>
      if cur.data_size ≤ k ∧ k < cur.data_size + to_write then buf (k - cur.data_size)
      else cur.sample_data k
    data_size := (cur.data_size + to_write) % 2 ^ size_bits
    buffer_size := sample_buffer_size }

/-- Lines 94-96 on the session: the checked-out buffer b is the one filled. -/
def copy_bytes (swa : switch_audio_t) (b : Fin 3) (buf : Nat → Nat) (to_write : Nat) :
    switch_audio_t :=
  { swa with buffers := Function.update swa.buffers b (fill_buffer (swa.buffers b) buf to_write) }

/-- Lines 91-108, run with buffer b checked out: clamp, copy, advance the fill length,
submit when it exceeds the threshold, stamp the time, return the byte count. -/
def copy_and_flush (env : write_env) (swa : switch_audio_t) (b : Fin 3) (buf : Nat → Nat)
    (size : Nat) (tr : List call) : result Int :=
  let to_write := clamp_to_write size (swa.buffers b).data_size
  let swa1 : switch_audio_t := copy_bytes swa b buf to_write
  let cur := swa1.buffers b
  let tr1 := tr ++ [call.memcpy b (swa.buffers b).data_size to_write]
  if cur.data_size > flush_threshold swa1.latency then
    let tr2 := tr1 ++ [call.audio_ipc_output_append_buffer b cur.buffer_size cur.data_size
      env.append_status]
    if env.append_status ≠ 0 then
      { ret := -1, swa := some swa1, trace := tr2 }
    else
      { ret := to_ssize_t to_write
        swa := some { swa1 with current_buffer := none, last_append := env.tick }
        trace := tr2 ++ [call.svcGetSystemTick env.tick] }
  else
    { ret := to_ssize_t to_write
      swa := some { swa1 with last_append := env.tick }
      trace := tr1 ++ [call.svcGetSystemTick env.tick] }

/-- The function switch_audio_write(data, buf, size).  buf is the caller's memory, byte by
offset.  The answer is none only when the blocking loop outlasts the fuel. -/
def switch_audio_write (env : write_env) (fuel : Nat) (data : Option switch_audio_t)
    (buf : Nat → Nat) (size : Nat) : Option (result Int) :=
  match data with
  | none => some { ret := -1, swa := none, trace := [] }
  | some swa =>
    match acquire env fuel swa with
    | none => none
    | some (acquired.returned v swa1 tr) => some { ret := v, swa := some swa1, trace := tr }
    | some (acquired.holding b swa1 tr) => some (copy_and_flush env swa1 b buf size tr)

/-! ## Start, stop, alive, nonblock (lines 111-143 and 173-179) -/

/-- The function switch_audio_stop(data); status is the answer of audio_ipc_output_stop. -/
def switch_audio_stop (status : Nat) (data : Option switch_audio_t) : result Bool :=
  match data with
  | none => { ret := false, swa := none, trace := [] }
  | some swa =>
    if !swa.is_paused then
      if status ≠ 0 then
        { ret := false, swa := some swa, trace := [call.audio_ipc_output_stop status] }
      else
        { ret := true, swa := some { swa with is_paused := true }
          trace := [call.audio_ipc_output_stop status] }
    else
      { ret := true, swa := some { swa with is_paused := true }, trace := [] }

/-- The function switch_audio_start(data, is_shutdown); status is the answer of
audio_ipc_output_start.  The C function dereferences data without a null test, so it is
defined on a present session only. -/
def switch_audio_start (status : Nat) (swa : switch_audio_t) (_is_shutdown : Bool) :
    result Bool :=
  if swa.is_paused then
    if status ≠ 0 then
      { ret := false, swa := some swa, trace := [call.audio_ipc_output_start status] }
    else
      { ret := true, swa := some { swa with is_paused := false }
        trace := [call.audio_ipc_output_start status] }
  else
    { ret := true, swa := some { swa with is_paused := false }, trace := [] }

/-- The function switch_audio_alive(data). -/
def switch_audio_alive (data : Option switch_audio_t) : Bool :=
  match data with
  | none => false
  | some swa => !swa.is_paused

/-- The function switch_audio_set_nonblock_state(data, state); the session afterwards. -/
def switch_audio_set_nonblock_state (data : Option switch_audio_t) (state : Bool) :
    Option switch_audio_t :=
  match data with
  | none => none
  | some swa => some { swa with blocking := !state }

/-- The function switch_audio_free(data): the calls it makes (lines 145-155). -/
def switch_audio_free (data : Option switch_audio_t) : List call :=
  match data with
  | none => []
  | some _ => [call.audio_ipc_output_close, call.audio_ipc_finalize, call.free]

/-- The function switch_audio_write_avail(data) (lines 163-171). -/
def switch_audio_write_avail (data : Option switch_audio_t) : Nat :=
  match data with
  | none => 0
  | some swa =>
    match swa.current_buffer with
    | none => 0
    | some b => (swa.buffers b).buffer_size

/-- The function switch_audio_buffer_size(data) (lines 270-274). -/
def switch_audio_buffer_size (_data : Option switch_audio_t) : Nat :=
  sample_buffer_size

/-! ## switch_audio_init (lines 181-268) -/

/-- The answers of the external calls of one switch_audio_init. calloc_ok: calloc gave
memory; num_names, output, event: what list_outputs, open_output and
register_buffer_event leave in their out-parameters; pages i: the region alloc_pages
gives for buffer i, none for NULL. -/
structure init_env where
  calloc_ok : Bool
  init_status : Nat
  list_status : Nat
  num_names : Nat
  open_status : Nat
  output : audio_output_t
  register_status : Nat
  event : Nat
  pages : Fin 3 → Option (Nat → Nat)
  append_status : Fin 3 → Nat
  tick : Nat

/-- What switch_audio_init leaves behind: the session it returns (none for NULL), the
value stored through new_rate (none when nothing is stored) and the calls it made. -/
structure init_result where
  swa : Option switch_audio_t
  new_rate : Option Nat
  trace : List call

/-- The session as calloc(1, sizeof(*swa)) gives it: every field zero. -/
def calloc_switch_audio_t : switch_audio_t :=
  { blocking := false, is_paused := false, last_append := 0, latency := 0,
    buffers := fun _ => { sample_data := fun _ => 0, buffer_size := 0, data_size := 0, unknown := 0 },
    current_buffer := none, output := { sample_rate := 0, num_channels := 0, sample_format := 0 },
    event := 0 }

/-- Label fail (lines 264-267): free the session, return NULL. -/
def fail (tr : List call) : init_result :=
  { swa := none, new_rate := none, trace := tr ++ [call.free] }

/-- Label fail_audio_ipc (line 262): audio_ipc_finalize, then fall through to fail. -/
def fail_audio_ipc (tr : List call) : init_result :=
  fail (tr ++ [call.audio_ipc_finalize])

/-- Label fail_audio_output (line 260): audio_ipc_output_close, then fall through. -/
def fail_audio_output (tr : List call) : init_result :=
  fail_audio_ipc (tr ++ [call.audio_ipc_output_close])

/-- Lines 232-245, the passes of the for loop over the listed indices: fill in the
buffer's fields, give up when alloc_pages gave NULL, append the buffer, give up when that
fails.  The answer is the session and trace after the last pass, or the trace at the
goto fail_audio_output. -/
def init_buffers (env : init_env) : List (Fin 3) → switch_audio_t → List call →
    Except (List call) (switch_audio_t × List call)
  | [], swa, tr => Except.ok (swa, tr)
  | i :: rest, swa, tr =>
    let b : audio_output_buffer_t :=
      { sample_data := (env.pages i).getD (fun _ => 0)
        buffer_size := sample_buffer_size
        data_size := sample_buffer_size
        unknown := 0 }
    let swa1 : switch_audio_t := { swa with buffers := Function.update swa.buffers i b }
    let tr1 := tr ++ [call.alloc_pages sample_buffer_size sample_buffer_size (env.pages i).isSome]
    if (env.pages i).isNone then
      Except.error tr1
    else
      let tr2 := tr1 ++ [call.audio_ipc_output_append_buffer i b.buffer_size b.data_size
        (env.append_status i)]
      if env.append_status i ≠ 0 then
        Except.error tr2
      else
        init_buffers env rest swa1 tr2

/-- The function switch_audio_init(device, rate, latency, block_frames, new_rate). -/
def switch_audio_init (env : init_env) (_device : String) (_rate : Nat) (latency : Nat)
    (block_frames : Nat) : init_result :=
  if !env.calloc_ok then
    { swa := none, new_rate := none, trace := [call.calloc false] }
  else
    let swa := calloc_switch_audio_t
    let tr := [call.calloc true, call.audio_ipc_init env.init_status]
    if env.init_status ≠ 0 then fail tr
    else
      let tr := tr ++ [call.audio_ipc_list_outputs env.list_status env.num_names]
      if env.list_status ≠ 0 then fail_audio_ipc tr
      else if env.num_names ≠ 1 then fail_audio_ipc tr
      else
        let tr := tr ++ [call.audio_ipc_open_output env.open_status]
        let swa : switch_audio_t := { swa with output := env.output }
        if env.open_status ≠ 0 then fail_audio_ipc tr
        else if swa.output.sample_rate ≠ sample_rate then fail_audio_output tr
        else if swa.output.num_channels ≠ num_channels then fail_audio_output tr
        else if swa.output.sample_format ≠ PCM_INT16 then fail_audio_output tr
        else
          let tr := tr ++ [call.audio_ipc_output_register_buffer_event env.register_status]
          let swa : switch_audio_t := { swa with event := env.event }
          if env.register_status ≠ 0 then fail_audio_output tr
          else
            match init_buffers env [0, 1, 2] swa tr with
            | Except.error tr => fail_audio_output tr
            | Except.ok (swa, tr) =>
              { swa := some { swa with
                  current_buffer := none
                  latency := latency
                  last_append := env.tick
                  blocking := decide (block_frames ≠ 0)
                  is_paused := true }
                new_rate := some swa.output.sample_rate
                trace := tr ++ [call.svcGetSystemTick env.tick] }

/-! ## Kinds of calls, for counting them in a trace -/

/-- The call is a released-buffer query. -/
def call.is_query : call → Bool
  | call.audio_ipc_output_get_released_buffer _ _ _ => true
  | _ => false

/-- The call is a wait on the release event. -/
def call.is_wait : call → Bool
  | call.svcWaitSynchronization _ => true
  | _ => false

/-- The call is a reset of the release event. -/
def call.is_reset : call → Bool
  | call.svcResetSignal _ => true
  | _ => false

/-- The call is a submit (audio_ipc_output_append_buffer). -/
def call.is_append : call → Bool
  | call.audio_ipc_output_append_buffer _ _ _ _ => true
  | _ => false

/-- The call is a memcpy into a pool buffer. -/
def call.is_memcpy : call → Bool
  | call.memcpy _ _ _ => true
  | _ => false

/-- The sessions a caller can reach, each with the history of external calls made so
far: the session a successful switch_audio_init returns, and from a reachable session the
one left by a write that returns, a start, a stop or a set_nonblock_state, whatever the
service answers. -/
inductive Reachable : switch_audio_t → List call → Prop where
  | init (env : init_env) (device : String) (rate latency block_frames : Nat)
      (swa : switch_audio_t) :
      (switch_audio_init env device rate latency block_frames).swa = some swa →
      Reachable swa (switch_audio_init env device rate latency block_frames).trace
  | write (env : write_env) (fuel : Nat) (buf : Nat → Nat) (size : Nat)
      (swa swa1 : switch_audio_t) (hist : List call) (r : result Int) :
      Reachable swa hist → switch_audio_write env fuel (some swa) buf size = some r →
      r.swa = some swa1 → Reachable swa1 (hist ++ r.trace)
  | start (status : Nat) (is_shutdown : Bool) (swa swa1 : switch_audio_t) (hist : List call) :
      Reachable swa hist → (switch_audio_start status swa is_shutdown).swa = some swa1 →
      Reachable swa1 (hist ++ (switch_audio_start status swa is_shutdown).trace)
  | stop (status : Nat) (swa swa1 : switch_audio_t) (hist : List call) :
      Reachable swa hist → (switch_audio_stop status (some swa)).swa = some swa1 →
      Reachable swa1 (hist ++ (switch_audio_stop status (some swa)).trace)
  | set_nonblock_state (state : Bool) (swa swa1 : switch_audio_t) (hist : List call) :
      Reachable swa hist → switch_audio_set_nonblock_state (some swa) state = some swa1 →
      Reachable swa1 hist

/-- Modelled from the spec: the Output Service is outside the source; this is its set of
buffers submitted and not yet released ("owned by Output Service"), followed along one
call.  A submit that succeeds adds the buffer.  A released-buffer query that succeeds and
reports at least one released buffer removes the buffer whose handle it gives.  A query
that fails or reports a released count of 0 releases nothing, whatever it leaves in the
handle; a failed submit and every other call leave the set as it is. -/
def queued_step (q : Finset (Fin 3)) : call → Finset (Fin 3)
  | call.audio_ipc_output_append_buffer i _ _ status => if status = 0 then insert i q else q
  | call.audio_ipc_output_get_released_buffer status num (some b) =>
    if status = 0 ∧ 1 ≤ num then q.erase b else q
  | _ => q

/-- The service's queued set after the calls of a history, starting from q. -/
def queued_after (q : Finset (Fin 3)) (hist : List call) : Finset (Fin 3) :=
  hist.foldl queued_step q

/-- The service's queued set after a history that starts with switch_audio_init. -/
def queued (hist : List call) : Finset (Fin 3) :=
  queued_after ∅ hist

/-- Every memcpy of the history goes to a buffer that is not in the service's queued set
at the moment of the copy, the set being q before the history. -/
def copies_unqueued : Finset (Fin 3) → List call → Bool
  | _, [] => true
  | q, call.memcpy b off n :: rest =>
    decide (b ∉ q) && copies_unqueued (queued_step q (call.memcpy b off n)) rest
  | q, c :: rest => copies_unqueued (queued_step q c) rest

/-- The calls of the passes of the for loop of switch_audio_init over the listed
indices, when every allocation and every submit succeeds. -/
def init_buffer_calls : List (Fin 3) → List call
  | [] => []
  | i :: rest =>
    [call.alloc_pages sample_buffer_size sample_buffer_size true,
     call.audio_ipc_output_append_buffer i sample_buffer_size sample_buffer_size 0]
      ++ init_buffer_calls rest

/-! ## Sample inputs used by the closed instances below -/

/-- A page region holding zero bytes. -/
def zero_page : Nat → Nat := fun _ => 0

/-- A service that answers every call of switch_audio_init with success, reports one
endpoint and the expected format. -/
def good_init_env : init_env :=
  { calloc_ok := true, init_status := 0, list_status := 0, num_names := 1, open_status := 0,
    output := { sample_rate := 48000, num_channels := 2, sample_format := PCM_INT16 },
    register_status := 0, event := 7, pages := fun _ => some zero_page,
    append_status := fun _ => 0, tick := 1000 }

/-- A paused session with latency 32, blocking disabled and no buffer checked out, its
pool buffers as switch_audio_init leaves them. -/
def idle_session : switch_audio_t :=
  { blocking := false, is_paused := true, last_append := 1000, latency := 32,
    buffers := fun _ => { sample_data := zero_page, buffer_size := sample_buffer_size,
                          data_size := sample_buffer_size, unknown := 0 },
    current_buffer := none,
    output := { sample_rate := 48000, num_channels := 2, sample_format := PCM_INT16 },
    event := 7 }

/-- A service that hands back pool buffer 0 on every query and accepts every submit. -/
def ready_env : write_env :=
  { released := fun _ => { status := 0, num := 1, buffer := some 0 }, append_status := 0,
    tick := 2000 }

/-- A service that reports no released buffer on every query. -/
def starved_env : write_env :=
  { released := fun _ => { status := 0, num := 0, buffer := none }, append_status := 0,
    tick := 2000 }

/-- A service that reports no buffer on the first query, hands back pool buffer 0 from
the second on, and refuses every submit with status 1. -/
def refusing_env : write_env :=
  { released := fun k => if k = 0 then { status := 0, num := 0, buffer := none }
                         else { status := 0, num := 1, buffer := some 0 },
    append_status := 1, tick := 2000 }

/-- A service that reports no buffer on the first two queries and hands back pool
buffer 1 from the third on; it accepts every submit. -/
def slow_env : write_env :=
  { released := fun k => if k < 2 then { status := 0, num := 0, buffer := none }
                         else { status := 0, num := 1, buffer := some 1 },
    append_status := 0, tick := 2000 }

/-- The session idle_session with blocking enabled. -/
def blocking_session : switch_audio_t := { idle_session with blocking := true }

/-- A caller buffer holding the byte 1 at every offset. -/
def ones : Nat → Nat := fun _ => 1

/-- The session switch_audio_init returns when good_init_env serves it, for a given
latency and block_frames. -/
def fresh_session (latency : Nat) (block_frames : Nat) : Option switch_audio_t :=
  (switch_audio_init good_init_env "" 44100 latency block_frames).swa

/-- A service that reports no buffer on the first query and from the second on answers
with a released count of 0 next to the handle of pool buffer 0. -/
def stale_env : write_env :=
  { released := fun k => if k = 0 then { status := 0, num := 0, buffer := none }
                         else { status := 0, num := 0, buffer := some 0 },
    append_status := 0, tick := 2000 }

/-- A service that answers every query with a released count of 0 next to the handle of
pool buffer 0. -/
def stale_first_env : write_env :=
  { released := fun _ => { status := 0, num := 0, buffer := some 0 },
    append_status := 0, tick := 2000 }

end SwitchAudio

/-!
# RetroArch: the Wii U Pro controller decoder (input/connect/connect_wiiupro.c)

The packet handler and the button query.  A packet is the list of its bytes, each a
natural number below 256 for a well-formed uint8_t buffer; the handler returns the
device afterwards together with the caller's packet, which it changes in place.  The C
code reads and writes offsets 0x0C to 0x0E whatever the size argument says, so it is
defined on packets of at least 15 bytes; on a shorter list the embedding reads 0 and
writes nothing.
-/

namespace Wiiupro

/-- The struct wiiupro_buttons (lines 26-47). -/
structure wiiupro_buttons where
  a : Bool
  b : Bool
  x : Bool
  y : Bool
  l : Bool
  r : Bool
  zl : Bool
  zr : Bool
  minus : Bool
  plus : Bool
  l3 : Bool
  r3 : Bool
  home : Bool
  left : Bool
  right : Bool
  up : Bool
  down : Bool
deriving DecidableEq

/-- The struct wiiupro (lines 49-53); hatvalue is an array of four bytes. -/
structure wiiupro where
  hatvalue : List Nat
  btn : wiiupro_buttons
deriving DecidableEq

/-- The struct hidpad_wiiupro_data (lines 55-63); the two pointers are kept as numbers. -/
structure hidpad_wiiupro_data where
  connection : Nat
  send_control : Nat
  data : wiiupro
  slot : Nat
  have_led : Bool
  motors : List Nat
deriving DecidableEq

/-- The statement packet[i] ^= 0xFF on a uint8_t buffer (lines 160-162). -/
def xor_ff (packet : List Nat) (i : Nat) : List Nat :=
  packet.set i ((packet.getD i 0 ^^^ 0xFF) % 256)

/-- The expression (packet[i] & mask) ? 1 : 0 stored in a bool (lines 166-184). -/
def test_mask (packet : List Nat) (i : Nat) (mask : Nat) : Bool :=
  decide (packet.getD i 0 &&& mask ≠ 0)

/-- The function hidpad_wiiupro_packet_handler(data, packet, size) (lines 145-185): the
device afterwards and the packet afterwards. -/
def hidpad_wiiupro_packet_handler (data : Option hidpad_wiiupro_data) (packet : List Nat)
    (_size : Nat) : Option hidpad_wiiupro_data × List Nat :=
  match data with
  | none => (none, packet)
  | some device =>
    let packet := xor_ff packet 0x0C
    let packet := xor_ff packet 0x0D
    let packet := xor_ff packet 0x0E
    let btn : wiiupro_buttons :=
      { b := test_mask packet 0x0D 0x40
        a := test_mask packet 0x0D 0x10
        y := test_mask packet 0x0D 0x20
        x := test_mask packet 0x0D 0x08
        l := test_mask packet 0x0C 0x20
        r := test_mask packet 0x0C 0x02
        zl := test_mask packet 0x0D 0x80
        zr := test_mask packet 0x0D 0x04
        minus := test_mask packet 0x0C 0x10
        plus := test_mask packet 0x0C 0x04
        l3 := test_mask packet 0x0E 0x02
        r3 := test_mask packet 0x0E 0x01
        left := test_mask packet 0x0D 0x02
        right := test_mask packet 0x0C 0x80
        up := test_mask packet 0x0D 0x01
        down := test_mask packet 0x0C 0x40
        home := test_mask packet 0x0C 0x8 }
    (some { device with data := { hatvalue := [0, 0, 0, 0], btn := btn } }, packet)

/-- The bind ids hidpad_wiiupro_get_buttons shifts by.  The source uses these constants
of the frontend's headers and does not declare them, so they are a parameter. -/
structure joypad_ids where
  RETRO_DEVICE_ID_JOYPAD_B : Nat
  RETRO_DEVICE_ID_JOYPAD_Y : Nat
  RETRO_DEVICE_ID_JOYPAD_SELECT : Nat
  RETRO_DEVICE_ID_JOYPAD_START : Nat
  RETRO_DEVICE_ID_JOYPAD_UP : Nat
  RETRO_DEVICE_ID_JOYPAD_DOWN : Nat
  RETRO_DEVICE_ID_JOYPAD_LEFT : Nat
  RETRO_DEVICE_ID_JOYPAD_RIGHT : Nat
  RETRO_DEVICE_ID_JOYPAD_A : Nat
  RETRO_DEVICE_ID_JOYPAD_X : Nat
  RETRO_DEVICE_ID_JOYPAD_L : Nat
  RETRO_DEVICE_ID_JOYPAD_R : Nat
  RETRO_DEVICE_ID_JOYPAD_L2 : Nat
  RETRO_DEVICE_ID_JOYPAD_R2 : Nat
  RETRO_DEVICE_ID_JOYPAD_L3 : Nat
  RETRO_DEVICE_ID_JOYPAD_R3 : Nat
  RARCH_MENU_TOGGLE : Nat

/-- The expression UINT64_C(1) << id, a 64-bit value. -/
def shifted_one (id : Nat) : Nat :=
  (1 <<< id) % 2 ^ 64

/-- The function hidpad_wiiupro_get_buttons(data) (lines 107-136). -/
def hidpad_wiiupro_get_buttons (ids : joypad_ids) (data : Option hidpad_wiiupro_data) : Nat :=
  match data with
  | none => 0
  | some device =>
    let rpt := device.data
    let buttonstate := 0
    let buttonstate := buttonstate ||| (if rpt.btn.r3 then shifted_one ids.RETRO_DEVICE_ID_JOYPAD_R3 else 0)
    let buttonstate := buttonstate ||| (if rpt.btn.l3 then shifted_one ids.RETRO_DEVICE_ID_JOYPAD_L3 else 0)
    let buttonstate := buttonstate ||| (if rpt.btn.plus then shifted_one ids.RETRO_DEVICE_ID_JOYPAD_START else 0)
    let buttonstate := buttonstate ||| (if rpt.btn.minus then shifted_one ids.RETRO_DEVICE_ID_JOYPAD_SELECT else 0)
    let buttonstate := buttonstate ||| (if rpt.btn.zr then shifted_one ids.RETRO_DEVICE_ID_JOYPAD_R2 else 0)
    let buttonstate := buttonstate ||| (if rpt.btn.zl then shifted_one ids.RETRO_DEVICE_ID_JOYPAD_L2 else 0)
    let buttonstate := buttonstate ||| (if rpt.btn.r then shifted_one ids.RETRO_DEVICE_ID_JOYPAD_R else 0)
    let buttonstate := buttonstate ||| (if rpt.btn.l then shifted_one ids.RETRO_DEVICE_ID_JOYPAD_L else 0)
    let buttonstate := buttonstate ||| (if rpt.btn.x then shifted_one ids.RETRO_DEVICE_ID_JOYPAD_X else 0)
    let buttonstate := buttonstate ||| (if rpt.btn.a then shifted_one ids.RETRO_DEVICE_ID_JOYPAD_A else 0)
    let buttonstate := buttonstate ||| (if rpt.btn.b then shifted_one ids.RETRO_DEVICE_ID_JOYPAD_B else 0)
    let buttonstate := buttonstate ||| (if rpt.btn.y then shifted_one ids.RETRO_DEVICE_ID_JOYPAD_Y else 0)
    let buttonstate := buttonstate ||| (if rpt.btn.left then shifted_one ids.RETRO_DEVICE_ID_JOYPAD_LEFT else 0)
    let buttonstate := buttonstate ||| (if rpt.btn.right then shifted_one ids.RETRO_DEVICE_ID_JOYPAD_RIGHT else 0)
    let buttonstate := buttonstate ||| (if rpt.btn.up then shifted_one ids.RETRO_DEVICE_ID_JOYPAD_UP else 0)
    let buttonstate := buttonstate ||| (if rpt.btn.down then shifted_one ids.RETRO_DEVICE_ID_JOYPAD_DOWN else 0)
    let buttonstate := buttonstate ||| (if rpt.btn.home then shifted_one ids.RARCH_MENU_TOGGLE else 0)
    buttonstate

/-- The 17 buttons of the controller. -/
inductive button where
  | r3 | l3 | plus | minus | zr | zl | r | l | x | a | b | y | left | right | up | down | home
deriving DecidableEq, Fintype

/-- The 17 buttons, in the order hidpad_wiiupro_get_buttons goes through them. -/
def button.all : List button :=
  [button.r3, button.l3, button.plus, button.minus, button.zr, button.zl, button.r, button.l,
   button.x, button.a, button.b, button.y, button.left, button.right, button.up, button.down,
   button.home]

/-- The decode table as the specification's claim lists it: the byte offset of each
button's bit in the packet. -/
def button.offset : button → Nat
  | button.right => 0x0C | button.down => 0x0C | button.l => 0x0C | button.minus => 0x0C
  | button.home => 0x0C | button.plus => 0x0C | button.r => 0x0C
  | button.zl => 0x0D | button.b => 0x0D | button.y => 0x0D | button.a => 0x0D
  | button.x => 0x0D | button.zr => 0x0D | button.left => 0x0D | button.up => 0x0D
  | button.l3 => 0x0E | button.r3 => 0x0E

/-- The decode table as the specification's claim lists it: the bit of each button
within its byte. -/
def button.mask : button → Nat
  | button.right => 0x80 | button.down => 0x40 | button.l => 0x20 | button.minus => 0x10
  | button.home => 0x08 | button.plus => 0x04 | button.r => 0x02
  | button.zl => 0x80 | button.b => 0x40 | button.y => 0x20 | button.a => 0x10
  | button.x => 0x08 | button.zr => 0x04 | button.left => 0x02 | button.up => 0x01
  | button.l3 => 0x02 | button.r3 => 0x01

/-- The field of the decoded state that holds the button. -/
def button.pressed (s : wiiupro_buttons) : button → Bool
  | button.r3 => s.r3 | button.l3 => s.l3 | button.plus => s.plus | button.minus => s.minus
  | button.zr => s.zr | button.zl => s.zl | button.r => s.r | button.l => s.l
  | button.x => s.x | button.a => s.a | button.b => s.b | button.y => s.y
  | button.left => s.left | button.right => s.right | button.up => s.up
  | button.down => s.down | button.home => s.home

/-- The bind id hidpad_wiiupro_get_buttons pairs with the button (lines 116-133). -/
def button.id (ids : joypad_ids) : button → Nat
  | button.r3 => ids.RETRO_DEVICE_ID_JOYPAD_R3
  | button.l3 => ids.RETRO_DEVICE_ID_JOYPAD_L3
  | button.plus => ids.RETRO_DEVICE_ID_JOYPAD_START
  | button.minus => ids.RETRO_DEVICE_ID_JOYPAD_SELECT
  | button.zr => ids.RETRO_DEVICE_ID_JOYPAD_R2
  | button.zl => ids.RETRO_DEVICE_ID_JOYPAD_L2
  | button.r => ids.RETRO_DEVICE_ID_JOYPAD_R
  | button.l => ids.RETRO_DEVICE_ID_JOYPAD_L
  | button.x => ids.RETRO_DEVICE_ID_JOYPAD_X
  | button.a => ids.RETRO_DEVICE_ID_JOYPAD_A
  | button.b => ids.RETRO_DEVICE_ID_JOYPAD_B
  | button.y => ids.RETRO_DEVICE_ID_JOYPAD_Y
  | button.left => ids.RETRO_DEVICE_ID_JOYPAD_LEFT
  | button.right => ids.RETRO_DEVICE_ID_JOYPAD_RIGHT
  | button.up => ids.RETRO_DEVICE_ID_JOYPAD_UP
  | button.down => ids.RETRO_DEVICE_ID_JOYPAD_DOWN
  | button.home => ids.RARCH_MENU_TOGGLE

/-- A byte with all bits set but those of the listed masks whose flag is true. -/
def clear_bits (bits : List (Bool × Nat)) : Nat :=
  0xFF - ((bits.filter (fun e => e.1)).map (fun e => e.2)).sum

/-- Byte 0x0C with the bits of the flagged buttons clear, in the order of the decode
table: right, down, l, minus, home, plus, r. -/
def byte_0C (right down l minus home plus r : Bool) : Nat :=
  clear_bits [(right, 0x80), (down, 0x40), (l, 0x20), (minus, 0x10), (home, 0x08),
    (plus, 0x04), (r, 0x02)]

/-- Byte 0x0D with the bits of the flagged buttons clear, in the order of the decode
table: zl, b, y, a, x, zr, left, up. -/
def byte_0D (zl b y a x zr left up : Bool) : Nat :=
  clear_bits [(zl, 0x80), (b, 0x40), (y, 0x20), (a, 0x10), (x, 0x08), (zr, 0x04),
    (left, 0x02), (up, 0x01)]

/-- Byte 0x0E with the bits of the flagged buttons clear: l3, r3. -/
def byte_0E (l3 r3 : Bool) : Nat :=
  clear_bits [(l3, 0x02), (r3, 0x01)]

/-- A 15-byte packet that delivers exactly the wanted buttons as pressed: zero bytes up to
offset 0x0B, then the three bytes of the decode table. -/
def wanted_packet (want : button → Bool) : List Nat :=
  List.replicate 12 0 ++
    [byte_0C (want button.right) (want button.down) (want button.l) (want button.minus)
       (want button.home) (want button.plus) (want button.r),
     byte_0D (want button.zl) (want button.b) (want button.y) (want button.a)
       (want button.x) (want button.zr) (want button.left) (want button.up),
     byte_0E (want button.l3) (want button.r3)]

/-- The ids of the libretro joypad and of the menu toggle in one frontend version, for
the closed instances. -/
def sample_ids : joypad_ids :=
  { RETRO_DEVICE_ID_JOYPAD_B := 0, RETRO_DEVICE_ID_JOYPAD_Y := 1,
    RETRO_DEVICE_ID_JOYPAD_SELECT := 2, RETRO_DEVICE_ID_JOYPAD_START := 3,
    RETRO_DEVICE_ID_JOYPAD_UP := 4, RETRO_DEVICE_ID_JOYPAD_DOWN := 5,
    RETRO_DEVICE_ID_JOYPAD_LEFT := 6, RETRO_DEVICE_ID_JOYPAD_RIGHT := 7,
    RETRO_DEVICE_ID_JOYPAD_A := 8, RETRO_DEVICE_ID_JOYPAD_X := 9,
    RETRO_DEVICE_ID_JOYPAD_L := 10, RETRO_DEVICE_ID_JOYPAD_R := 11,
    RETRO_DEVICE_ID_JOYPAD_L2 := 12, RETRO_DEVICE_ID_JOYPAD_R2 := 13,
    RETRO_DEVICE_ID_JOYPAD_L3 := 14, RETRO_DEVICE_ID_JOYPAD_R3 := 15,
    RARCH_MENU_TOGGLE := 40 }

/-- A device as calloc and hidpad_wiiupro_init leave it, in slot 1. -/
def sample_device : hidpad_wiiupro_data :=
  { connection := 1, send_control := 2,
    data := { hatvalue := [0, 0, 0, 0],
              btn := { a := false, b := false, x := false, y := false, l := false, r := false,
                       zl := false, zr := false, minus := false, plus := false, l3 := false,
                       r3 := false, home := false, left := false, right := false, up := false,
                       down := false } },
    slot := 1, have_led := false, motors := [0, 0] }

/-- A 16-byte packet with A (byte 0x0D bit 0x10) and home (byte 0x0C bit 0x08) pressed. -/
def sample_packet : List Nat :=
  [0xA1, 0x3D, 0, 0, 0, 0, 0, 0, 0, 0, 0, 0, 0xF7, 0xEF, 0xFF, 0x55]

end Wiiupro

namespace SwitchAudio

/-! ## Theorems -/

/-- Line 29 evaluated. -/
theorem sample_buffer_size_eq : sample_buffer_size = 192512 := by decide

/-! ### The acquisition phase of switch_audio_write -/

/-- What the blocking loop does when it returns: it made m + 1 passes for some m below
the fuel, the first m queries succeeded and left a null handle, and the last one either
failed (the call returns -1) or succeeded with a handle (the loop exits holding it). -/
theorem wait_loop_spec (env : write_env) :
    ∀ (fuel k : Nat) (swa : switch_audio_t) (tr : List call) (res : acquired),
      swa.current_buffer = none → wait_loop env fuel k swa tr = some res →
      ∃ m, m < fuel ∧
        (∀ j, j < m → (env.released (k + j)).status = 0 ∧ (env.released (k + j)).buffer = none) ∧
        (((env.released (k + m)).status ≠ 0 ∧
            res = acquired.returned (-1)
              { swa with current_buffer := (env.released (k + m)).buffer }
              (tr ++ wait_cycles env swa.event k (m + 1))) ∨
         ((env.released (k + m)).status = 0 ∧ ∃ b, (env.released (k + m)).buffer = some b ∧
            res = acquired.holding b { swa with current_buffer := some b }
              (tr ++ wait_cycles env swa.event k (m + 1)))) := by
  intro fuel
  induction fuel with
  | zero =>
    intro k swa tr res hc h
    simp [wait_loop, hc] at h
  | succ fuel ih =>
    intro k swa tr res hc h
    simp only [wait_loop, hc] at h
    by_cases hs : (env.released k).status = 0
    · simp only [hs, ne_eq, not_true_eq_false, if_false] at h
      cases hb : (env.released k).buffer with
      | some b =>
        refine ⟨0, Nat.succ_pos _, fun j hj => absurd hj (Nat.not_lt_zero j), Or.inr ⟨hs, b, hb, ?_⟩⟩
        rw [hb] at h
        cases fuel with
        | zero =>
          simp only [wait_loop, Option.some.injEq] at h
          simp [← h, wait_cycles]
        | succ f =>
          simp only [wait_loop, Option.some.injEq] at h
          simp [← h, wait_cycles]
      | none =>
        rw [hb] at h
        obtain ⟨m, hm, hall, hlast⟩ := ih (k + 1) _ _ res rfl h
        refine ⟨m + 1, Nat.succ_lt_succ hm, ?_, ?_⟩
        · intro j hj
          cases j with
          | zero => exact ⟨hs, hb⟩
          | succ j =>
            have := hall j (Nat.lt_of_succ_lt_succ hj)
            rwa [Nat.add_assoc, Nat.add_comm 1 j] at this
        · have e : k + 1 + m = k + (m + 1) := by omega
          rw [e] at hlast
          rcases hlast with ⟨h1, h2⟩ | ⟨h1, b, h2, h3⟩
          · refine Or.inl ⟨h1, ?_⟩
            rw [h2]
            simp [wait_cycles, List.append_assoc]
          · refine Or.inr ⟨h1, b, h2, ?_⟩
            rw [h3]
            simp [wait_cycles, List.append_assoc]
    · refine ⟨0, Nat.succ_pos _, fun j hj => absurd hj (Nat.not_lt_zero j), Or.inl ⟨hs, ?_⟩⟩
      simp only [ne_eq, hs, not_false_eq_true, if_true, Option.some.injEq] at h
      simp [← h, wait_cycles]

/-- The blocking loop terminates when the service cooperates: if the next m queries
succeed with a null handle and the one after succeeds with handle b, then with more than
m passes of fuel the loop exits holding b after m + 1 passes. -/
theorem wait_loop_run (env : write_env) :
    ∀ (m fuel k : Nat) (swa : switch_audio_t) (tr : List call) (b : Fin 3),
      swa.current_buffer = none → m < fuel →
      (∀ j, j < m → (env.released (k + j)).status = 0 ∧ (env.released (k + j)).buffer = none) →
      (env.released (k + m)).status = 0 → (env.released (k + m)).buffer = some b →
      wait_loop env fuel k swa tr
        = some (acquired.holding b { swa with current_buffer := some b }
            (tr ++ wait_cycles env swa.event k (m + 1))) := by
  intro m
  induction m with
  | zero =>
    intro fuel k swa tr b hc hf _ hs hb
    obtain ⟨f, rfl⟩ : ∃ f, fuel = f + 1 := ⟨fuel - 1, by omega⟩
    simp only [Nat.add_zero] at hs hb
    simp only [wait_loop, hc, hs, hb, ne_eq, not_true_eq_false, if_false]
    cases f <;> simp [wait_loop, wait_cycles]
  | succ m ih =>
    intro fuel k swa tr b hc hf hall hs hb
    obtain ⟨f, rfl⟩ : ∃ f, fuel = f + 1 := ⟨fuel - 1, by omega⟩
    have h0 := hall 0 (Nat.succ_pos m)
    simp only [Nat.add_zero] at h0
    simp only [wait_loop, hc, h0.1, h0.2, ne_eq, not_true_eq_false, if_false]
    have e : k + (m + 1) = k + 1 + m := by omega
    rw [e] at hs hb
    rw [ih f (k + 1) _ _ b rfl (by omega) ?_ hs hb]
    · simp [wait_cycles, List.append_assoc]
    · intro j hj
      have := hall (j + 1) (by omega)
      rwa [show k + (j + 1) = k + 1 + j by omega] at this

/-- What lines 52-89 do when they do not outlast the fuel.  Either a buffer was checked
out and nothing happens, or m + 1 queries are made (the initial one and m in the loop),
the first m of them succeeding without leaving a handle the driver keeps, and the last
either fails (return -1), or reports no buffer to a non-blocking session (return 0), or
hands over buffer b, whose fill length is then reset. -/
theorem acquire_spec (env : write_env) (fuel : Nat) (swa : switch_audio_t) (res : acquired)
    (h : acquire env fuel swa = some res) :
    (∃ b, swa.current_buffer = some b ∧ res = acquired.holding b swa []) ∨
    (swa.current_buffer = none ∧ ∃ m, m ≤ fuel ∧
      (∀ j, j < m → (env.released j).status = 0) ∧
      (0 < m → swa.blocking = true ∧
        ((env.released 0).num < 1 ∨ (env.released 0).buffer = none)) ∧
      (∀ j, 0 < j → j < m → (env.released j).buffer = none) ∧
      (((env.released m).status ≠ 0 ∧
          res = acquired.returned (-1) { swa with current_buffer := (env.released m).buffer }
            (released_buffer_call env 0 :: wait_cycles env swa.event 1 m)) ∨
       ((env.released m).status = 0 ∧ m = 0 ∧ swa.blocking = false ∧
          ((env.released 0).num < 1 ∨ (env.released 0).buffer = none) ∧
          res = acquired.returned 0 swa [released_buffer_call env 0]) ∨
       ((env.released m).status = 0 ∧ ∃ b, (env.released m).buffer = some b ∧
          (m = 0 → ¬ (env.released 0).num < 1) ∧
          res = acquired.holding b (reset_data_size { swa with current_buffer := some b } b)
            (released_buffer_call env 0 :: wait_cycles env swa.event 1 m)))) := by
  cases hc : swa.current_buffer with
  | some b =>
    left
    simp only [acquire, hc, Option.some.injEq] at h
    exact ⟨b, rfl, h.symm⟩
  | none =>
    right
    refine ⟨rfl, ?_⟩
    simp only [acquire, hc] at h
    by_cases hs : (env.released 0).status = 0
    swap
    · refine ⟨0, Nat.zero_le _, fun j hj => absurd hj (Nat.not_lt_zero j),
        fun h0 => absurd h0 (Nat.lt_irrefl 0), fun j h0 hj => absurd hj (Nat.not_lt_zero j),
        Or.inl ⟨hs, ?_⟩⟩
      simp only [ne_eq, hs, not_false_eq_true, if_true, Option.some.injEq] at h
      simp [← h, wait_cycles]
    simp only [hs, ne_eq, not_true_eq_false, if_false] at h
    by_cases hkeep : (env.released 0).num < 1 ∨ (env.released 0).buffer = none
    · have hnone : (if (env.released 0).num < 1 then none else (env.released 0).buffer)
          = (none : Option (Fin 3)) := by
        rcases hkeep with h1 | h1
        · simp [h1]
        · simp [h1]
      simp only [hnone] at h
      cases hbl : swa.blocking with
      | false =>
        refine ⟨0, Nat.zero_le _, fun j hj => absurd hj (Nat.not_lt_zero j),
          fun h0 => absurd h0 (Nat.lt_irrefl 0), fun j h0 hj => absurd hj (Nat.not_lt_zero j),
          Or.inr (Or.inl ⟨hs, rfl, rfl, hkeep, ?_⟩)⟩
        simp only [hbl, Bool.false_eq_true, if_false, Option.some.injEq] at h
        rw [← h]
        cases swa
        simp_all
      | true =>
        simp only [hbl, if_true, Option.map_eq_some'] at h
        obtain ⟨res1, hloop, hres⟩ := h
        obtain ⟨m, hm, hall, hlast⟩ := wait_loop_spec env fuel 1 _ _ res1 rfl hloop
        refine ⟨m + 1, hm, ?_, fun _ => ⟨rfl, hkeep⟩, ?_, ?_⟩
        · intro j hj
          cases j with
          | zero => exact hs
          | succ j =>
            have := (hall j (by omega)).1
            rwa [Nat.add_comm 1 j] at this
        · intro j h0 hj
          obtain ⟨i, rfl⟩ : ∃ i, j = i + 1 := ⟨j - 1, by omega⟩
          have := (hall i (by omega)).2
          rwa [Nat.add_comm 1 i] at this
        · rw [Nat.add_comm 1 m] at hlast
          rcases hlast with ⟨h1, h2⟩ | ⟨h1, b, h2, h3⟩
          · refine Or.inl ⟨h1, ?_⟩
            rw [← hres, h2]
            simp [acquired.reset]
          · refine Or.inr (Or.inr ⟨h1, b, h2, fun h0 => absurd h0 (Nat.succ_ne_zero m), ?_⟩)
            rw [← hres, h3]
            simp [acquired.reset]
    · have hnum : ¬ (env.released 0).num < 1 := fun hh => hkeep (Or.inl hh)
      obtain ⟨b, hb⟩ : ∃ b, (env.released 0).buffer = some b :=
        Option.ne_none_iff_exists'.mp (fun hh => hkeep (Or.inr hh))
      refine ⟨0, Nat.zero_le _, fun j hj => absurd hj (Nat.not_lt_zero j),
        fun h0 => absurd h0 (Nat.lt_irrefl 0), fun j h0 hj => absurd hj (Nat.not_lt_zero j),
        Or.inr (Or.inr ⟨hs, b, hb, fun _ => hnum, ?_⟩)⟩
      simp only [hnum, if_false, hb, Option.some.injEq] at h
      simp [← h, wait_cycles]

/-! ### The copy phase of switch_audio_write -/

/-- With the fill length within the capacity the size_t subtraction of line 91 does not
wrap and the clamp is a minimum. -/
theorem clamp_to_write_eq (size d : Nat) (hd : d ≤ sample_buffer_size) :
    clamp_to_write size d = min size (sample_buffer_size - d) := by
  unfold clamp_to_write
  rw [sample_buffer_size_eq] at hd ⊢
  simp only [size_bits]
  norm_num
  have e : (192512 + 18446744073709551616 - d) % 18446744073709551616 = 192512 - d := by omega
  rw [e]
  split_ifs with h
  · omega
  · omega

/-- A byte count within the capacity converts to ssize_t unchanged. -/
theorem to_ssize_t_small (n : Nat) (hn : n ≤ sample_buffer_size) : to_ssize_t n = (n : Int) := by
  rw [sample_buffer_size_eq] at hn
  have hlt : n < 2 ^ (size_bits - 1) := by
    simp only [size_bits]
    norm_num
    omega
  have hlt2 : n < 2 ^ size_bits := by
    simp only [size_bits]
    norm_num
    omega
  unfold to_ssize_t
  rw [Nat.mod_eq_of_lt hlt2, if_pos hlt]

/-- The fill length of the buffer after lines 94-96. -/
theorem copy_bytes_data_size (swa : switch_audio_t) (b : Fin 3) (buf : Nat → Nat) (w : Nat) :
    ((copy_bytes swa b buf w).buffers b).data_size = ((swa.buffers b).data_size + w) % 2 ^ size_bits ∧
    ((copy_bytes swa b buf w).buffers b).buffer_size = sample_buffer_size := by
  simp [copy_bytes, fill_buffer]

/-- The three ways lines 91-108 end: submit failed, buffer submitted, buffer kept. -/
theorem copy_and_flush_spec (env : write_env) (swa : switch_audio_t) (b : Fin 3)
    (buf : Nat → Nat) (size : Nat) (tr : List call) (d w f : Nat)
    (hd : d = (swa.buffers b).data_size) (hw : w = clamp_to_write size d)
    (hf : f = (d + w) % 2 ^ size_bits) :
    (flush_threshold swa.latency < f ∧ env.append_status ≠ 0 ∧
      copy_and_flush env swa b buf size tr =
        { ret := -1, swa := some (copy_bytes swa b buf w),
          trace := tr ++ [call.memcpy b d w,
            call.audio_ipc_output_append_buffer b sample_buffer_size f env.append_status] }) ∨
    (flush_threshold swa.latency < f ∧ env.append_status = 0 ∧
      copy_and_flush env swa b buf size tr =
        { ret := to_ssize_t w,
          swa := some { copy_bytes swa b buf w with
                        current_buffer := none, last_append := env.tick },
          trace := tr ++ [call.memcpy b d w,
            call.audio_ipc_output_append_buffer b sample_buffer_size f env.append_status,
            call.svcGetSystemTick env.tick] }) ∨
    (¬ flush_threshold swa.latency < f ∧
      copy_and_flush env swa b buf size tr =
        { ret := to_ssize_t w,
          swa := some { copy_bytes swa b buf w with last_append := env.tick },
          trace := tr ++ [call.memcpy b d w, call.svcGetSystemTick env.tick] }) := by
  subst hd
  subst hw
  have h1 := (copy_bytes_data_size swa b buf
    (clamp_to_write size (swa.buffers b).data_size)).1
  have h2 := (copy_bytes_data_size swa b buf
    (clamp_to_write size (swa.buffers b).data_size)).2
  have hl : (copy_bytes swa b buf (clamp_to_write size (swa.buffers b).data_size)).latency
      = swa.latency := rfl
  rw [← hf] at h1
  by_cases hthr : flush_threshold swa.latency < f
  · by_cases hst : env.append_status = 0
    · right; left
      refine ⟨hthr, hst, ?_⟩
      simp [copy_and_flush, h1, h2, hl, hthr, hst]
    · left
      refine ⟨hthr, hst, ?_⟩
      simp [copy_and_flush, h1, h2, hl, hthr, hst]
  · right; right
    refine ⟨hthr, ?_⟩
    simp [copy_and_flush, h1, hl, hthr]

/-- A write on a present session that returns either returned early from the acquisition
or ran lines 91-108 on the buffer the acquisition left checked out. -/
theorem switch_audio_write_some (env : write_env) (fuel : Nat) (swa : switch_audio_t)
    (buf : Nat → Nat) (size : Nat) (r : result Int)
    (h : switch_audio_write env fuel (some swa) buf size = some r) :
    (∃ v swa1 tr, acquire env fuel swa = some (acquired.returned v swa1 tr) ∧
      r = { ret := v, swa := some swa1, trace := tr }) ∨
    (∃ b swa1 tr, acquire env fuel swa = some (acquired.holding b swa1 tr) ∧
      r = copy_and_flush env swa1 b buf size tr) := by
  simp only [switch_audio_write] at h
  split at h
  · exact absurd h (by simp)
  · rename_i v swa1 tr hacq
    simp only [Option.some.injEq] at h
    exact Or.inl ⟨v, swa1, tr, hacq, h.symm⟩
  · rename_i b swa1 tr hacq
    simp only [Option.some.injEq] at h
    exact Or.inr ⟨b, swa1, tr, hacq, h.symm⟩

/-- Lines 91-108 on a buffer whose fill length d is within the capacity, when they do not
report failure: min(size, capacity - d) bytes are copied to offset d, that count is
returned and the fill length becomes d plus the count. -/
theorem copy_and_flush_consumed (env : write_env) (swa : switch_audio_t) (b : Fin 3)
    (buf : Nat → Nat) (size : Nat) (tr : List call)
    (hd : (swa.buffers b).data_size ≤ sample_buffer_size)
    (hok : 0 ≤ (copy_and_flush env swa b buf size tr).ret) :
    ∃ swa2, (copy_and_flush env swa b buf size tr).swa = some swa2 ∧
      call.memcpy b (swa.buffers b).data_size
        (min size (sample_buffer_size - (swa.buffers b).data_size))
        ∈ (copy_and_flush env swa b buf size tr).trace ∧
      (copy_and_flush env swa b buf size tr).ret
        = ((min size (sample_buffer_size - (swa.buffers b).data_size) : Nat) : Int) ∧
      (swa2.buffers b).data_size
        = (swa.buffers b).data_size + min size (sample_buffer_size - (swa.buffers b).data_size) := by
  have hw := clamp_to_write_eq size _ hd
  have hsmall : min size (sample_buffer_size - (swa.buffers b).data_size) ≤ sample_buffer_size :=
    le_trans (min_le_right _ _) (Nat.sub_le _ _)
  have hsum : ((swa.buffers b).data_size
      + min size (sample_buffer_size - (swa.buffers b).data_size)) % 2 ^ size_bits
      = (swa.buffers b).data_size + min size (sample_buffer_size - (swa.buffers b).data_size) := by
    apply Nat.mod_eq_of_lt
    have hm := min_le_right size (sample_buffer_size - (swa.buffers b).data_size)
    have hsb := sample_buffer_size_eq
    have hp : (2 : Nat) ^ size_bits = 18446744073709551616 := by
      simp only [size_bits]
      norm_num
    rw [hp]
    omega
  have hds := (copy_bytes_data_size swa b buf
    (min size (sample_buffer_size - (swa.buffers b).data_size))).1
  rw [hsum] at hds
  rcases copy_and_flush_spec env swa b buf size tr _ _ _ rfl hw.symm rfl with
    ⟨-, -, h⟩ | ⟨-, -, h⟩ | ⟨-, h⟩
  · rw [h] at hok
    simp at hok
  · rw [h]
    exact ⟨_, rfl, by simp, to_ssize_t_small _ hsmall, hds⟩
  · rw [h]
    exact ⟨_, rfl, by simp, to_ssize_t_small _ hsmall, hds⟩

/-- Every way a write on a present session returns: a released-buffer query failed; a
non-blocking session found no buffer; lines 91-108 ran on the buffer already checked
out; or they ran on a buffer acquired by the last of m + 1 successful queries, its fill
length reset to 0. -/
theorem switch_audio_write_spec (env : write_env) (fuel : Nat) (swa : switch_audio_t)
    (buf : Nat → Nat) (size : Nat) (r : result Int)
    (h : switch_audio_write env fuel (some swa) buf size = some r) :
    (swa.current_buffer = none ∧ ∃ m, m ≤ fuel ∧
      (∀ j, j < m → (env.released j).status = 0) ∧
      (0 < m → swa.blocking = true ∧
        ((env.released 0).num < 1 ∨ (env.released 0).buffer = none)) ∧
      (∀ j, 0 < j → j < m → (env.released j).buffer = none) ∧
      (env.released m).status ≠ 0 ∧
      r = { ret := -1, swa := some { swa with current_buffer := (env.released m).buffer },
            trace := released_buffer_call env 0 :: wait_cycles env swa.event 1 m }) ∨
    (swa.current_buffer = none ∧ swa.blocking = false ∧ (env.released 0).status = 0 ∧
      ((env.released 0).num < 1 ∨ (env.released 0).buffer = none) ∧
      r = { ret := 0, swa := some swa, trace := [released_buffer_call env 0] }) ∨
    (∃ b, swa.current_buffer = some b ∧ r = copy_and_flush env swa b buf size []) ∨
    (swa.current_buffer = none ∧ ∃ m b, m ≤ fuel ∧
      (∀ j, j ≤ m → (env.released j).status = 0) ∧
      (0 < m → swa.blocking = true ∧
        ((env.released 0).num < 1 ∨ (env.released 0).buffer = none)) ∧
      (∀ j, 0 < j → j < m → (env.released j).buffer = none) ∧
      (env.released m).buffer = some b ∧ (m = 0 → ¬ (env.released 0).num < 1) ∧
      r = copy_and_flush env (reset_data_size { swa with current_buffer := some b } b) b buf size
            (released_buffer_call env 0 :: wait_cycles env swa.event 1 m)) := by
  rcases switch_audio_write_some env fuel swa buf size r h with
    ⟨v, swa1, tr, hacq, hr⟩ | ⟨b, swa1, tr, hacq, hr⟩
  · rcases acquire_spec env fuel swa _ hacq with ⟨b, -, hres⟩ | ⟨hc, m, hm, hall, hfirst, hmid, hlast⟩
    · exact absurd hres (by simp)
    · rcases hlast with ⟨hs, hres⟩ | ⟨hs, rfl, hbl, hkeep, hres⟩ | ⟨-, b, -, -, hres⟩
      · simp only [acquired.returned.injEq] at hres
        obtain ⟨rfl, rfl, rfl⟩ := hres
        exact Or.inl ⟨hc, m, hm, hall, hfirst, hmid, hs, hr⟩
      · simp only [acquired.returned.injEq] at hres
        obtain ⟨rfl, rfl, rfl⟩ := hres
        exact Or.inr (Or.inl ⟨hc, hbl, hs, hkeep, hr⟩)
      · exact absurd hres (by simp)
  · rcases acquire_spec env fuel swa _ hacq with ⟨c, hc, hres⟩ | ⟨hc, m, hm, hall, hfirst, hmid, hlast⟩
    · simp only [acquired.holding.injEq] at hres
      obtain ⟨rfl, rfl, rfl⟩ := hres
      exact Or.inr (Or.inr (Or.inl ⟨b, hc, hr⟩))
    · rcases hlast with ⟨-, hres⟩ | ⟨-, -, -, -, hres⟩ | ⟨hs, c, hb, hnum, hres⟩
      · exact absurd hres (by simp)
      · exact absurd hres (by simp)
      · simp only [acquired.holding.injEq] at hres
        obtain ⟨rfl, rfl, rfl⟩ := hres
        refine Or.inr (Or.inr (Or.inr ⟨hc, m, b, hm, ?_, hfirst, hmid, hb, hnum, hr⟩))
        intro j hj
        rcases Nat.lt_or_eq_of_le hj with h1 | h1
        · exact hall j h1
        · rw [h1]
          exact hs

/-! ### Counting calls -/

/-- The passes of the loop body make one wait, one reset and one query each, and no
submit and no copy. -/
theorem wait_cycles_count (env : write_env) (event : Nat) :
    ∀ (m k : Nat),
      (wait_cycles env event k m).countP call.is_wait = m ∧
      (wait_cycles env event k m).countP call.is_reset = m ∧
      (wait_cycles env event k m).countP call.is_query = m ∧
      (wait_cycles env event k m).countP call.is_append = 0 ∧
      (wait_cycles env event k m).countP call.is_memcpy = 0 := by
  intro m
  induction m with
  | zero =>
    intro k
    simp [wait_cycles]
  | succ m ih =>
    intro k
    obtain ⟨h1, h2, h3, h4, h5⟩ := ih (k + 1)
    simp only [wait_cycles, wait_cycle, released_buffer_call, List.countP_append, h1, h2, h3, h4,
      h5]
    simp [List.countP_cons, call.is_wait, call.is_reset, call.is_query, call.is_append,
      call.is_memcpy]
    omega

/-- The calls of the acquisition phase, when m + 1 queries are made. -/
theorem acquire_trace_count (env : write_env) (event : Nat) (m : Nat) :
    (released_buffer_call env 0 :: wait_cycles env event 1 m).countP call.is_wait = m ∧
    (released_buffer_call env 0 :: wait_cycles env event 1 m).countP call.is_reset = m ∧
    (released_buffer_call env 0 :: wait_cycles env event 1 m).countP call.is_query = m + 1 ∧
    (released_buffer_call env 0 :: wait_cycles env event 1 m).countP call.is_append = 0 ∧
    (released_buffer_call env 0 :: wait_cycles env event 1 m).countP call.is_memcpy = 0 := by
  obtain ⟨h1, h2, h3, h4, h5⟩ := wait_cycles_count env event m 1
  simp [List.countP_cons, h1, h2, h3, h4, h5, released_buffer_call, call.is_wait, call.is_reset,
    call.is_query, call.is_append, call.is_memcpy]

/-- The members of the passes of the loop body: waits, resets, and the queries numbered
from k up to k + m - 1. -/
theorem mem_wait_cycles (env : write_env) (event : Nat) (c : call) :
    ∀ (m k : Nat), c ∈ wait_cycles env event k m →
      c = call.svcWaitSynchronization 33333333 ∨ c = call.svcResetSignal event ∨
      ∃ j, k ≤ j ∧ j < k + m ∧ c = released_buffer_call env j := by
  intro m
  induction m with
  | zero =>
    intro k h
    simp [wait_cycles] at h
  | succ m ih =>
    intro k h
    simp only [wait_cycles, wait_cycle, List.mem_append, List.mem_cons, List.mem_singleton,
      List.not_mem_nil, or_false] at h
    rcases h with (h | h | h) | h
    · exact Or.inl h
    · exact Or.inr (Or.inl h)
    · exact Or.inr (Or.inr ⟨k, le_refl k, by omega, h⟩)
    · rcases ih (k + 1) h with h1 | h1 | ⟨j, hj1, hj2, hj3⟩
      · exact Or.inl h1
      · exact Or.inr (Or.inl h1)
      · exact Or.inr (Or.inr ⟨j, by omega, by omega, hj3⟩)

/-- Every query of the passes of the loop body is in their trace. -/
theorem released_buffer_call_mem_wait_cycles (env : write_env) (event : Nat) :
    ∀ (m k j : Nat), k ≤ j → j < k + m → released_buffer_call env j ∈ wait_cycles env event k m := by
  intro m
  induction m with
  | zero =>
    intro k j h1 h2
    omega
  | succ m ih =>
    intro k j h1 h2
    simp only [wait_cycles, wait_cycle, List.mem_append, List.mem_cons, List.mem_singleton,
      List.not_mem_nil, or_false]
    rcases Nat.eq_or_lt_of_le h1 with h | h
    · subst h
      exact Or.inl (Or.inr (Or.inr rfl))
    · exact Or.inr (ih (k + 1) j h (by omega))

/-- The queries in the trace of an acquisition that made m + 1 queries are those numbered
0 to m, so when these all succeeded the trace holds no failed query; it holds no submit. -/
theorem acquire_trace_queries (env : write_env) (event : Nat) (m : Nat)
    (hall : ∀ j, j ≤ m → (env.released j).status = 0) :
    ∀ st num h, call.audio_ipc_output_get_released_buffer st num h
      ∈ released_buffer_call env 0 :: wait_cycles env event 1 m → st = 0 := by
  intro st num h hmem
  simp only [List.mem_cons] at hmem
  rcases hmem with hmem | hmem
  · simp only [released_buffer_call, call.audio_ipc_output_get_released_buffer.injEq] at hmem
    rw [hmem.1]
    exact hall 0 (Nat.zero_le _)
  · rcases mem_wait_cycles env event _ m 1 hmem with h1 | h1 | ⟨j, -, hj2, hj3⟩
    · exact absurd h1 (by simp)
    · exact absurd h1 (by simp)
    · simp only [released_buffer_call, call.audio_ipc_output_get_released_buffer.injEq] at hj3
      rw [hj3.1]
      exact hall j (by omega)

/-! ### The claims about switch_audio_write -/

/-- C1 (amended): on a session whose checked-out buffer (if any) has fill length within
the capacity, a write that does not fail returns at most size.  When the session is
non-blocking with no buffer checked out and the query reports no buffer (a released count
below 1 or a null handle), the call copies nothing, leaves the session as it was and
returns 0.  In every other case it works on one buffer b with fill length fill before the
copy (that of the checked-out buffer, or 0 for a buffer acquired and reset in this call),
copies and returns exactly min(size, sample_buffer_size - fill), which is at most the
remaining space and is the whole capacity for a larger request into an empty buffer, and
advances the fill length of b by the returned amount. -/
theorem switch_audio_write_consumed (env : write_env) (fuel : Nat) (swa : switch_audio_t)
    (buf : Nat → Nat) (size : Nat) (r : result Int)
    (hfill : ∀ b, swa.current_buffer = some b → (swa.buffers b).data_size ≤ sample_buffer_size)
    (hrun : switch_audio_write env fuel (some swa) buf size = some r)
    (hok : 0 ≤ r.ret) :
    r.ret ≤ (size : Int) ∧
    ((swa.current_buffer = none ∧ swa.blocking = false ∧
        ((env.released 0).num < 1 ∨ (env.released 0).buffer = none)) →
      r.ret = 0 ∧ r.swa = some swa ∧ r.trace = [released_buffer_call env 0]) ∧
    (¬ (swa.current_buffer = none ∧ swa.blocking = false ∧
        ((env.released 0).num < 1 ∨ (env.released 0).buffer = none)) →
      ∃ b fill swa1, r.swa = some swa1 ∧
        (∀ c, swa.current_buffer = some c → c = b ∧ fill = (swa.buffers c).data_size) ∧
        (swa.current_buffer = none → fill = 0) ∧
        call.memcpy b fill (min size (sample_buffer_size - fill)) ∈ r.trace ∧
        r.ret = ((min size (sample_buffer_size - fill) : Nat) : Int) ∧
        r.ret ≤ ((sample_buffer_size - fill : Nat) : Int) ∧
        (swa1.buffers b).data_size = fill + min size (sample_buffer_size - fill) ∧
        (fill = 0 → sample_buffer_size < size → r.ret = (sample_buffer_size : Int))) := by
  have finish : ∀ (b : Fin 3) (swa0 : switch_audio_t) (tr : List call),
      (swa0.buffers b).data_size ≤ sample_buffer_size →
      r = copy_and_flush env swa0 b buf size tr →
      r.ret ≤ (size : Int) ∧ ∃ swa1, r.swa = some swa1 ∧
        call.memcpy b (swa0.buffers b).data_size
          (min size (sample_buffer_size - (swa0.buffers b).data_size)) ∈ r.trace ∧
        r.ret = ((min size (sample_buffer_size - (swa0.buffers b).data_size) : Nat) : Int) ∧
        r.ret ≤ ((sample_buffer_size - (swa0.buffers b).data_size : Nat) : Int) ∧
        (swa1.buffers b).data_size = (swa0.buffers b).data_size
          + min size (sample_buffer_size - (swa0.buffers b).data_size) ∧
        ((swa0.buffers b).data_size = 0 → sample_buffer_size < size →
          r.ret = (sample_buffer_size : Int)) := by
    intro b swa0 tr hd hr
    subst hr
    obtain ⟨swa1, h1, h2, h3, h4⟩ := copy_and_flush_consumed env swa0 b buf size tr hd hok
    refine ⟨?_, swa1, h1, h2, h3, ?_, h4, ?_⟩
    · rw [h3]
      exact_mod_cast min_le_left _ _
    · rw [h3]
      exact_mod_cast min_le_right _ _
    · intro h0 hlt
      rw [h3, h0, Nat.sub_zero, min_eq_right (le_of_lt hlt)]
  rcases switch_audio_write_spec env fuel swa buf size r hrun with
    ⟨-, m, -, -, -, -, -, hr⟩ | ⟨hc, hbl, -, hkeep, hr⟩ | ⟨b, hc, hr⟩ |
    ⟨hc, m, b, -, -, hfirst, -, hb, hnum, hr⟩
  · rw [hr] at hok
    simp at hok
  · subst hr
    exact ⟨by simp, fun _ => ⟨rfl, rfl, rfl⟩, fun hn => absurd ⟨hc, hbl, hkeep⟩ hn⟩
  · obtain ⟨hle, swa2, h1, h2, h3, h4, h5, h6⟩ := finish b swa [] (hfill b hc) hr
    refine ⟨hle, fun hs => ?_, fun _ =>
      ⟨b, (swa.buffers b).data_size, swa2, h1, ?_, ?_, h2, h3, h4, h5, h6⟩⟩
    · rw [hc] at hs
      exact absurd hs.1 (by simp)
    · intro c hcc
      rw [hc] at hcc
      simp only [Option.some.injEq] at hcc
      subst hcc
      exact ⟨rfl, rfl⟩
    · intro hn
      rw [hc] at hn
      exact absurd hn (by simp)
  · have hz : ((reset_data_size { swa with current_buffer := some b } b).buffers b).data_size
        = 0 := by
      simp [reset_data_size]
    obtain ⟨hle, swa2, h1, h2, h3, h4, h5, h6⟩ :=
      finish b _ _ (by rw [hz]; exact Nat.zero_le _) hr
    rw [hz] at h2 h3 h4 h5 h6
    refine ⟨hle, fun hs => ?_, fun _ => ⟨b, 0, swa2, h1, ?_, fun _ => rfl, h2, h3, h4, h5, h6⟩⟩
    · exfalso
      obtain ⟨-, hbl, hkeep⟩ := hs
      rcases Nat.eq_zero_or_pos m with hm | hm
      · subst hm
        rcases hkeep with hk | hk
        · exact hnum rfl hk
        · rw [hk] at hb
          exact absurd hb (by simp)
      · rw [(hfirst hm).1] at hbl
        exact absurd hbl (by simp)
    · intro c hcc
      rw [hc] at hcc
      exact absurd hcc (by simp)

/-- C1 (amended) at a concrete call: a request of 200000 bytes on idle_session, which
acquires buffer 0 from ready_env, returns the capacity 192512 and leaves that fill
length. -/
theorem switch_audio_write_consumed_witness :
    ∃ r swa1, switch_audio_write ready_env 0 (some idle_session) ones 200000 = some r ∧
      r.swa = some swa1 ∧ r.ret = 192512 ∧ (swa1.buffers 0).data_size = 192512 ∧
      r.ret ≤ (200000 : Int) :=
  ⟨_, _, rfl, rfl, rfl, rfl,
   (switch_audio_write_consumed ready_env 0 idle_session ones 200000 _
      (fun b hb => absurd hb (by simp [idle_session])) rfl (by decide)).1⟩

/-- C1 as stated fails: a write of 100 bytes on the non-blocking idle_session, which has
no buffer checked out, served by a service that reports no released buffer, does not fail
and returns 0.  It acquires no buffer and copies nothing, and 0 is not
min(100, sample_buffer_size - fill) for the fill the claim assigns (none is checked out,
so 0), nor for any fill below the capacity. -/
theorem switch_audio_write_consumed_counterexample :
    ∃ r, switch_audio_write starved_env 0 (some idle_session) ones 100 = some r ∧
      idle_session.current_buffer = none ∧ idle_session.blocking = false ∧
      0 ≤ r.ret ∧ r.ret = 0 ∧ r.trace = [call.audio_ipc_output_get_released_buffer 0 0 none] ∧
      r.trace.countP call.is_memcpy = 0 ∧
      (∃ s1, r.swa = some s1 ∧ s1.current_buffer = none) ∧
      r.ret ≠ ((min 100 (sample_buffer_size - 0) : Nat) : Int) ∧
      ∀ fill, fill < sample_buffer_size →
        r.ret ≠ ((min 100 (sample_buffer_size - fill) : Nat) : Int) :=
  ⟨_, rfl, rfl, rfl, by decide, rfl, rfl, by decide, ⟨_, rfl, rfl⟩, by decide,
   fun fill hfill hh => by
     have hsb := sample_buffer_size_eq
     have h0 : (0 : Int) = ((min 100 (sample_buffer_size - fill) : Nat) : Int) := hh
     have h1 : min 100 (sample_buffer_size - fill) = 0 := by exact_mod_cast h0.symm
     rcases Nat.min_eq_zero_iff.mp h1 with h2 | h2
     · exact absurd h2 (by decide)
     · omega⟩

/-- The acquisition phase of a blocking session terminates when the service cooperates:
if the first n queries (n at least 1) succeed and leave no handle the driver keeps and
query n + 1 succeeds with handle b, then with fuel for n passes it ends holding b, its
fill length reset, after the initial query and n passes of the loop. -/
theorem acquire_blocking_run (env : write_env) (fuel : Nat) (swa : switch_audio_t) (n : Nat)
    (b : Fin 3) (hbl : swa.blocking = true) (hc : swa.current_buffer = none) (hn : 1 ≤ n)
    (hfuel : n ≤ fuel)
    (h0 : (env.released 0).status = 0 ∧
      ((env.released 0).num = 0 ∨ (env.released 0).buffer = none))
    (hmid : ∀ j, 1 ≤ j → j < n →
      (env.released j).status = 0 ∧ (env.released j).buffer = none)
    (hlast : (env.released n).status = 0 ∧ (env.released n).buffer = some b) :
    acquire env fuel swa
      = some (acquired.holding b (reset_data_size { swa with current_buffer := some b } b)
          (released_buffer_call env 0 :: wait_cycles env swa.event 1 n)) := by
  obtain ⟨m, rfl⟩ : ∃ m, n = m + 1 := ⟨n - 1, by omega⟩
  have hnone : (if (env.released 0).num < 1 then none else (env.released 0).buffer)
      = (none : Option (Fin 3)) := by
    rcases h0.2 with h1 | h1
    · simp [h1]
    · simp [h1]
  cases swa with
  | mk bl p la lat bufs cur out ev =>
    simp only at hbl hc
    subst hbl
    subst hc
    have hrun := wait_loop_run env m fuel 1
      { blocking := true, is_paused := p, last_append := la, latency := lat, buffers := bufs,
        current_buffer := none, output := out, event := ev }
      [released_buffer_call env 0] b rfl (by omega)
      (fun j hj => by
        have := hmid (1 + j) (by omega) (by omega)
        exact this)
      (by rw [Nat.add_comm 1 m]; exact hlast.1) (by rw [Nat.add_comm 1 m]; exact hlast.2)
    simp only [acquire, h0.1, hnone, ne_eq, not_true_eq_false, if_false, if_true, hrun,
      Option.map_some', acquired.reset]
    simp

/-- C4 (amended): on a blocking session with no buffer checked out, if the first n
queries (n at least 1) succeed and report no buffer (count 0 or a null handle on the
initial query, a null handle on the re-queries) and query n + 1 succeeds with a count of
at least 1 and buffer b, then with fuel for n passes the write returns; it makes exactly
n waits, n resets and n + 1 queries, the acquisition being the initial query followed by
n wait-reset-query passes; it continues on b with the fill length reset to 0, copying
min(size, sample_buffer_size) bytes to offset 0; and it returns that count, which is not
negative, unless the fill exceeds the threshold and the submit call fails, where it
returns -1. -/
theorem switch_audio_write_blocking_acquire (env : write_env) (fuel : Nat)
    (swa : switch_audio_t) (buf : Nat → Nat) (size : Nat) (n : Nat) (b : Fin 3)
    (hbl : swa.blocking = true) (hc : swa.current_buffer = none) (hn : 1 ≤ n)
    (hfuel : n ≤ fuel)
    (h0 : (env.released 0).status = 0 ∧
      ((env.released 0).num = 0 ∨ (env.released 0).buffer = none))
    (hmid : ∀ j, 1 ≤ j → j < n →
      (env.released j).status = 0 ∧ (env.released j).buffer = none)
    (hlast : (env.released n).status = 0 ∧ 1 ≤ (env.released n).num ∧
      (env.released n).buffer = some b) :
    ∃ r, switch_audio_write env fuel (some swa) buf size = some r ∧
      r = copy_and_flush env (reset_data_size { swa with current_buffer := some b } b) b buf size
            (released_buffer_call env 0 :: wait_cycles env swa.event 1 n) ∧
      r.trace.countP call.is_wait = n ∧ r.trace.countP call.is_reset = n ∧
      r.trace.countP call.is_query = n + 1 ∧
      (∃ rest, r.trace = (released_buffer_call env 0 :: wait_cycles env swa.event 1 n)
        ++ call.memcpy b 0 (min size sample_buffer_size) :: rest) ∧
      ((flush_threshold swa.latency < min size sample_buffer_size ∧ env.append_status ≠ 0 ∧
          r.ret = -1) ∨
       (¬ (flush_threshold swa.latency < min size sample_buffer_size ∧ env.append_status ≠ 0) ∧
          r.ret = ((min size sample_buffer_size : Nat) : Int) ∧ 0 ≤ r.ret)) := by
  have hacq := acquire_blocking_run env fuel swa n b hbl hc hn hfuel h0 hmid ⟨hlast.1, hlast.2.2⟩
  refine ⟨_, by simp only [switch_audio_write, hacq], rfl, ?_⟩
  obtain ⟨c1, c2, c3, -, -⟩ := acquire_trace_count env swa.event n
  have hz : ((reset_data_size { swa with current_buffer := some b } b).buffers b).data_size
      = 0 := by
    simp [reset_data_size]
  have hw : min size sample_buffer_size = clamp_to_write size 0 := by
    rw [clamp_to_write_eq size 0 (Nat.zero_le _), Nat.sub_zero]
  have hsmall : min size sample_buffer_size ≤ sample_buffer_size := min_le_right _ _
  have hmod : (0 + min size sample_buffer_size) % 2 ^ size_bits = min size sample_buffer_size := by
    rw [Nat.zero_add]
    apply Nat.mod_eq_of_lt
    have hsb := sample_buffer_size_eq
    have hp : (2 : Nat) ^ size_bits = 18446744073709551616 := by
      simp only [size_bits]
      norm_num
    rw [hp]
    omega
  have hl : (reset_data_size { swa with current_buffer := some b } b).latency = swa.latency :=
    rfl
  rcases copy_and_flush_spec env (reset_data_size { swa with current_buffer := some b } b) b buf
    size (released_buffer_call env 0 :: wait_cycles env swa.event 1 n) 0
    (min size sample_buffer_size) (min size sample_buffer_size) hz.symm hw hmod.symm with
    ⟨hthr, hst, h⟩ | ⟨hthr, hst, h⟩ | ⟨hthr, h⟩
  · rw [h]
    rw [hl] at hthr
    refine ⟨?_, ?_, ?_, ⟨_, rfl⟩, Or.inl ⟨hthr, hst, rfl⟩⟩
    · simp only [List.countP_append, c1]
      simp [List.countP_cons, call.is_wait]
    · simp only [List.countP_append, c2]
      simp [List.countP_cons, call.is_reset]
    · simp only [List.countP_append, c3]
      simp [List.countP_cons, call.is_query]
  · rw [h]
    refine ⟨?_, ?_, ?_, ⟨_, rfl⟩, Or.inr ⟨fun hh => hh.2 hst, to_ssize_t_small _ hsmall, ?_⟩⟩
    · simp only [List.countP_append, c1]
      simp [List.countP_cons, call.is_wait]
    · simp only [List.countP_append, c2]
      simp [List.countP_cons, call.is_reset]
    · simp only [List.countP_append, c3]
      simp [List.countP_cons, call.is_query]
    · show 0 ≤ to_ssize_t (min size sample_buffer_size)
      rw [to_ssize_t_small _ hsmall]
      exact Int.natCast_nonneg _
  · rw [h]
    rw [hl] at hthr
    refine ⟨?_, ?_, ?_, ⟨_, rfl⟩, Or.inr ⟨fun hh => hthr hh.1, to_ssize_t_small _ hsmall, ?_⟩⟩
    · simp only [List.countP_append, c1]
      simp [List.countP_cons, call.is_wait]
    · simp only [List.countP_append, c2]
      simp [List.countP_cons, call.is_reset]
    · simp only [List.countP_append, c3]
      simp [List.countP_cons, call.is_query]
    · show 0 ≤ to_ssize_t (min size sample_buffer_size)
      rw [to_ssize_t_small _ hsmall]
      exact Int.natCast_nonneg _

/-- C4 at the input of the claim: slow_env reports no buffer on the first two queries
and buffer 1 on the third, and the blocking write of 100 bytes makes exactly two waits,
two resets and three queries, then returns 100. -/
theorem switch_audio_write_blocking_acquire_witness :
    ∃ r, switch_audio_write slow_env 2 (some blocking_session) ones 100 = some r ∧
      r.trace.countP call.is_wait = 2 ∧ r.trace.countP call.is_reset = 2 ∧
      r.trace.countP call.is_query = 3 ∧ r.ret = 100 :=
  match switch_audio_write_blocking_acquire slow_env 2 blocking_session ones 100 2 1 rfl rfl
    (by decide) (by decide) ⟨rfl, Or.inl rfl⟩
    (fun j h1 h2 => by
      have hj : j = 1 := by omega
      subst hj
      exact ⟨rfl, rfl⟩)
    ⟨rfl, by decide, rfl⟩ with
  | ⟨r, hrun, hr, hw, hrs, hqu, _, _⟩ => ⟨r, hrun, hw, hrs, hqu, by rw [hr]; rfl⟩

/-- C4 as stated fails: with every query succeeding, none on the first and buffer 0 on
the second, the blocking write of 2000 bytes (threshold 1536) reaches the submit call,
which fails, and the write returns -1, not a non-negative count. -/
theorem switch_audio_write_blocking_counterexample :
    blocking_session.blocking = true ∧ blocking_session.current_buffer = none ∧
    (refusing_env.released 0).status = 0 ∧ (refusing_env.released 0).num = 0 ∧
    (refusing_env.released 0).buffer = none ∧
    (refusing_env.released 1).status = 0 ∧ (refusing_env.released 1).num = 1 ∧
    (refusing_env.released 1).buffer = some 0 ∧
    ∃ r, switch_audio_write refusing_env 1 (some blocking_session) ones 2000 = some r ∧
      r.ret = -1 ∧ ¬ 0 ≤ r.ret ∧
      r.trace = [call.audio_ipc_output_get_released_buffer 0 0 none,
        call.svcWaitSynchronization 33333333, call.svcResetSignal 7,
        call.audio_ipc_output_get_released_buffer 0 1 (some 0),
        call.memcpy 0 0 2000,
        call.audio_ipc_output_append_buffer 0 192512 2000 1] :=
  ⟨rfl, rfl, rfl, rfl, rfl, rfl, rfl, rfl, _, rfl, rfl, by decide, by decide⟩

/-- Lines 91-108 on a buffer whose fill length is within the capacity, after an
acquisition without a failed query: the result is -1 exactly when the submit call was
made and failed, and otherwise lies between 0 and the capacity. -/
theorem copy_and_flush_sentinel (env : write_env) (swa0 : switch_audio_t) (b : Fin 3)
    (buf : Nat → Nat) (size : Nat) (tr : List call)
    (hd : (swa0.buffers b).data_size ≤ sample_buffer_size)
    (hq : ∀ st num h, call.audio_ipc_output_get_released_buffer st num h ∈ tr → st = 0)
    (hta : tr.countP call.is_append = 0) :
    ((copy_and_flush env swa0 b buf size tr).ret < 0 ↔
      ∃ c bs ds st, call.audio_ipc_output_append_buffer c bs ds st
        ∈ (copy_and_flush env swa0 b buf size tr).trace ∧ st ≠ 0) ∧
    (∀ st num h, call.audio_ipc_output_get_released_buffer st num h
      ∈ (copy_and_flush env swa0 b buf size tr).trace → st = 0) ∧
    ((copy_and_flush env swa0 b buf size tr).ret < 0 →
      (copy_and_flush env swa0 b buf size tr).ret = -1) ∧
    (¬ (copy_and_flush env swa0 b buf size tr).ret < 0 →
      0 ≤ (copy_and_flush env swa0 b buf size tr).ret ∧
      (copy_and_flush env swa0 b buf size tr).ret ≤ (sample_buffer_size : Int)) := by
  have hw := clamp_to_write_eq size _ hd
  have hsmall : clamp_to_write size (swa0.buffers b).data_size ≤ sample_buffer_size := by
    rw [hw]
    exact le_trans (min_le_right _ _) (Nat.sub_le _ _)
  have hret := to_ssize_t_small _ hsmall
  have hneg : (-1 : Int) < 0 := by decide
  have hnoapp : ∀ c bs ds st, call.audio_ipc_output_append_buffer c bs ds st ∉ tr := by
    intro c bs ds st hmem
    have : 0 < tr.countP call.is_append := List.countP_pos_iff.mpr ⟨_, hmem, rfl⟩
    omega
  rcases copy_and_flush_spec env swa0 b buf size tr _ _ _ rfl rfl rfl with
    ⟨-, hst, h⟩ | ⟨-, hst, h⟩ | ⟨-, h⟩
  · rw [h]
    refine ⟨⟨fun _ => ⟨b, sample_buffer_size,
      ((swa0.buffers b).data_size + clamp_to_write size (swa0.buffers b).data_size) % 2 ^ size_bits,
      env.append_status, by simp, hst⟩, fun _ => hneg⟩, ?_, fun _ => rfl,
      fun hn => absurd hneg hn⟩
    intro st num hh hmem
    simp only [List.mem_append, List.mem_cons, reduceCtorEq, List.mem_singleton, or_self,
      or_false, List.not_mem_nil] at hmem
    exact hq st num hh hmem
  · rw [h]
    have hnn : ¬ to_ssize_t (clamp_to_write size (swa0.buffers b).data_size) < 0 := by
      rw [hret]
      exact not_lt.mpr (Int.natCast_nonneg _)
    refine ⟨⟨fun hh => absurd hh hnn, ?_⟩, ?_, fun hh => absurd hh hnn, fun _ => ⟨?_, ?_⟩⟩
    · rintro ⟨c, bs, ds, st, hmem, hne⟩
      simp only [List.mem_append, List.mem_cons, reduceCtorEq,
        call.audio_ipc_output_append_buffer.injEq, List.mem_singleton, false_or, or_false,
        List.not_mem_nil] at hmem
      rcases hmem with hmem | ⟨-, -, -, rfl⟩
      · exact absurd hmem (hnoapp c bs ds st)
      · exact absurd hst hne
    · intro st num hh hmem
      simp only [List.mem_append, List.mem_cons, reduceCtorEq, List.mem_singleton, or_self,
        or_false, List.not_mem_nil] at hmem
      exact hq st num hh hmem
    · show 0 ≤ to_ssize_t _
      rw [hret]
      exact Int.natCast_nonneg _
    · show to_ssize_t _ ≤ _
      rw [hret]
      exact_mod_cast hsmall
  · rw [h]
    have hnn : ¬ to_ssize_t (clamp_to_write size (swa0.buffers b).data_size) < 0 := by
      rw [hret]
      exact not_lt.mpr (Int.natCast_nonneg _)
    refine ⟨⟨fun hh => absurd hh hnn, ?_⟩, ?_, fun hh => absurd hh hnn, fun _ => ⟨?_, ?_⟩⟩
    · rintro ⟨c, bs, ds, st, hmem, hne⟩
      simp only [List.mem_append, List.mem_cons, reduceCtorEq, List.mem_singleton, or_self,
        or_false, List.not_mem_nil] at hmem
      exact absurd hmem (hnoapp c bs ds st)
    · intro st num hh hmem
      simp only [List.mem_append, List.mem_cons, reduceCtorEq, List.mem_singleton, or_self,
        or_false, List.not_mem_nil] at hmem
      exact hq st num hh hmem
    · show 0 ≤ to_ssize_t _
      rw [hret]
      exact Int.natCast_nonneg _
    · show to_ssize_t _ ≤ _
      rw [hret]
      exact_mod_cast hsmall

/-- C5: for a write that returns, on a session whose checked-out buffer (if any) has
fill length within the capacity, the result is negative if and only if the session is
absent, or a released-buffer query made during the call (the initial one or a re-query of
the blocking loop) reported failure, or the submit call was made and reported failure;
a negative result is -1, and every other result lies in 0..sample_buffer_size. -/
theorem switch_audio_write_error_sentinel (env : write_env) (fuel : Nat)
    (data : Option switch_audio_t) (buf : Nat → Nat) (size : Nat) (r : result Int)
    (hfill : ∀ swa b, data = some swa → swa.current_buffer = some b →
      (swa.buffers b).data_size ≤ sample_buffer_size)
    (hrun : switch_audio_write env fuel data buf size = some r) :
    (r.ret < 0 ↔
      data = none ∨
      (∃ st num h, call.audio_ipc_output_get_released_buffer st num h ∈ r.trace ∧ st ≠ 0) ∨
      (∃ c bs ds st, call.audio_ipc_output_append_buffer c bs ds st ∈ r.trace ∧ st ≠ 0)) ∧
    (r.ret < 0 → r.ret = -1) ∧
    (¬ r.ret < 0 → 0 ≤ r.ret ∧ r.ret ≤ (sample_buffer_size : Int)) := by
  have hneg : (-1 : Int) < 0 := by decide
  have hzero : ¬ (0 : Int) < 0 := by decide
  cases data with
  | none =>
    simp only [switch_audio_write, Option.some.injEq] at hrun
    subst hrun
    exact ⟨⟨fun _ => Or.inl rfl, fun _ => hneg⟩, fun _ => rfl, fun hn => absurd hneg hn⟩
  | some swa =>
    have final : ∀ (swa0 : switch_audio_t) (b : Fin 3) (tr : List call),
        (swa0.buffers b).data_size ≤ sample_buffer_size →
        (∀ st num h, call.audio_ipc_output_get_released_buffer st num h ∈ tr → st = 0) →
        tr.countP call.is_append = 0 →
        r = copy_and_flush env swa0 b buf size tr →
        (r.ret < 0 ↔
          some swa = none ∨
          (∃ st num h, call.audio_ipc_output_get_released_buffer st num h ∈ r.trace ∧ st ≠ 0) ∨
          (∃ c bs ds st, call.audio_ipc_output_append_buffer c bs ds st ∈ r.trace ∧ st ≠ 0)) ∧
        (r.ret < 0 → r.ret = -1) ∧
        (¬ r.ret < 0 → 0 ≤ r.ret ∧ r.ret ≤ (sample_buffer_size : Int)) := by
      intro swa0 b tr hd hq hta hr
      subst hr
      obtain ⟨h1, h2, h3, h4⟩ := copy_and_flush_sentinel env swa0 b buf size tr hd hq hta
      refine ⟨⟨fun hh => Or.inr (Or.inr (h1.mp hh)), ?_⟩, h3, h4⟩
      rintro (hh | ⟨st, num, h, hmem, hne⟩ | hh)
      · exact absurd hh (by simp)
      · exact absurd (h2 st num h hmem) hne
      · exact h1.mpr hh
    rcases switch_audio_write_spec env fuel swa buf size r hrun with
      ⟨-, m, -, -, -, -, hs, hr⟩ | ⟨-, -, hs, -, hr⟩ | ⟨b, hc, hr⟩ |
      ⟨-, m, b, -, hall, -, -, -, -, hr⟩
    · subst hr
      refine ⟨⟨fun _ => Or.inr (Or.inl ⟨(env.released m).status, (env.released m).num,
        (env.released m).buffer, ?_, hs⟩), fun _ => hneg⟩, fun _ => rfl,
        fun hn => absurd hneg hn⟩
      show released_buffer_call env m ∈ released_buffer_call env 0 :: wait_cycles env swa.event 1 m
      cases m with
      | zero => exact List.mem_cons_self _ _
      | succ m =>
        exact List.mem_cons_of_mem _
          (released_buffer_call_mem_wait_cycles env swa.event (m + 1) 1 (m + 1) (by omega)
            (by omega))
    · subst hr
      refine ⟨⟨fun hh => absurd hh hzero, ?_⟩, fun hh => absurd hh hzero,
        fun _ => ⟨le_refl _, Int.natCast_nonneg _⟩⟩
      rintro (hh | ⟨st, num, h, hmem, hne⟩ | ⟨c, bs, ds, st, hmem, -⟩)
      · exact absurd hh (by simp)
      · simp only [released_buffer_call, List.mem_singleton,
          call.audio_ipc_output_get_released_buffer.injEq] at hmem
        exact absurd (hmem.1.trans hs) hne
      · simp [released_buffer_call] at hmem
    · exact final swa b [] (hfill swa b rfl hc) (fun _ _ _ hmem => absurd hmem (by simp)) rfl hr
    · have hz : ((reset_data_size { swa with current_buffer := some b } b).buffers b).data_size
          = 0 := by
        simp [reset_data_size]
      exact final _ b _ (by rw [hz]; exact Nat.zero_le _)
        (acquire_trace_queries env swa.event m hall)
        (acquire_trace_count env swa.event m).2.2.2.1 hr

/-- C5 at concrete calls: the write on an absent session returns -1; the write whose
submit call fails returns -1; the write on idle_session served by ready_env returns 100. -/
theorem switch_audio_write_error_sentinel_witness :
    (∃ r, switch_audio_write ready_env 0 none ones 100 = some r ∧ r.ret = -1) ∧
    (∃ r, switch_audio_write refusing_env 1 (some blocking_session) ones 2000 = some r ∧
      r.ret = -1) ∧
    (∃ r, switch_audio_write ready_env 0 (some idle_session) ones 100 = some r ∧
      r.ret = 100 ∧ 0 ≤ r.ret ∧ r.ret ≤ (sample_buffer_size : Int)) :=
  ⟨⟨_, rfl, (switch_audio_write_error_sentinel ready_env 0 none ones 100 _
      (fun _ _ h => absurd h (by simp)) rfl).2.1 (by decide)⟩,
   ⟨_, rfl, (switch_audio_write_error_sentinel refusing_env 1 (some blocking_session) ones 2000 _
      (fun swa b h hb => by
        simp only [Option.some.injEq] at h
        subst h
        exact absurd hb (by simp [blocking_session, idle_session])) rfl).2.1 (by decide)⟩,
   ⟨_, rfl, rfl, (switch_audio_write_error_sentinel ready_env 0 (some idle_session) ones 100 _
      (fun swa b h hb => by
        simp only [Option.some.injEq] at h
        subst h
        exact absurd hb (by simp [idle_session])) rfl).2.2 (by decide)⟩⟩

/-- C3: a non-blocking session with no buffer checked out whose released-buffer query
succeeds but reports no buffer (count 0 or a null handle) returns 0 after exactly that
one call, with the session, its pool buffers included, exactly as before. -/
theorem switch_audio_write_nonblocking_starved (env : write_env) (fuel : Nat)
    (swa : switch_audio_t) (buf : Nat → Nat) (size : Nat)
    (hbl : swa.blocking = false) (hc : swa.current_buffer = none)
    (hs : (env.released 0).status = 0)
    (hn : (env.released 0).num = 0 ∨ (env.released 0).buffer = none) :
    switch_audio_write env fuel (some swa) buf size
      = some { ret := 0, swa := some swa, trace := [released_buffer_call env 0] } ∧
    [released_buffer_call env 0].countP call.is_query = 1 ∧
    [released_buffer_call env 0].countP call.is_wait = 0 ∧
    [released_buffer_call env 0].countP call.is_reset = 0 ∧
    [released_buffer_call env 0].countP call.is_append = 0 ∧
    [released_buffer_call env 0].countP call.is_memcpy = 0 := by
  refine ⟨?_, by simp [released_buffer_call, call.is_query],
    by simp [released_buffer_call, call.is_wait], by simp [released_buffer_call, call.is_reset],
    by simp [released_buffer_call, call.is_append], by simp [released_buffer_call, call.is_memcpy]⟩
  have hnone : (if (env.released 0).num < 1 then none else (env.released 0).buffer)
      = (none : Option (Fin 3)) := by
    rcases hn with h1 | h1
    · simp [h1]
    · simp [h1]
  cases swa
  simp_all [switch_audio_write, acquire]

/-- C3 at a concrete call: idle_session is non-blocking with no buffer, starved_env
reports count 0, and the write of 100 bytes returns 0 after the one query. -/
theorem switch_audio_write_nonblocking_starved_witness :
    switch_audio_write starved_env 0 (some idle_session) ones 100
      = some { ret := 0, swa := some idle_session,
               trace := [call.audio_ipc_output_get_released_buffer 0 0 none] } :=
  (switch_audio_write_nonblocking_starved starved_env 0 idle_session ones 100 rfl rfl rfl
    (Or.inl rfl)).1

/-! ### Start and stop -/

/-- C8: switch_audio_start on a running session and switch_audio_stop on a paused session
make no external call, report success and leave the session exactly as it was; hence
after a start that succeeds a second start makes no call, succeeds, leaves the session
unchanged and switch_audio_alive is true after either. -/
theorem switch_audio_start_stop_idempotent (swa : switch_audio_t) (status status2 : Nat)
    (is_shutdown is_shutdown2 : Bool) :
    (swa.is_paused = false →
      switch_audio_start status swa is_shutdown = { ret := true, swa := some swa, trace := [] }) ∧
    (swa.is_paused = true →
      switch_audio_stop status (some swa) = { ret := true, swa := some swa, trace := [] }) ∧
    (∀ swa1, (switch_audio_start status swa is_shutdown).ret = true →
      (switch_audio_start status swa is_shutdown).swa = some swa1 →
      switch_audio_alive (some swa1) = true ∧
      switch_audio_start status2 swa1 is_shutdown2 = { ret := true, swa := some swa1, trace := [] } ∧
      switch_audio_alive (switch_audio_start status2 swa1 is_shutdown2).swa
        = switch_audio_alive (some swa1)) := by
  have key : ∀ (s : switch_audio_t) (st : Nat) (sh : Bool), s.is_paused = false →
      switch_audio_start st s sh = { ret := true, swa := some s, trace := [] } := by
    intro s st sh h
    cases s
    simp_all [switch_audio_start]
  refine ⟨key swa status is_shutdown, ?_, ?_⟩
  · intro h
    cases swa
    simp_all [switch_audio_stop]
  · intro swa1 hret hswa
    have hp : swa1.is_paused = false := by
      unfold switch_audio_start at hret hswa
      split_ifs at hret hswa <;> simp_all <;> subst hswa <;> rfl
    refine ⟨by simp [switch_audio_alive, hp], key swa1 status2 is_shutdown2 hp, ?_⟩
    rw [key swa1 status2 is_shutdown2 hp]

/-- C8 at a concrete session: idle_session is paused, so stop is a no-op on it, a start
whose service call succeeds leaves it running, and a second start is a no-op. -/
theorem switch_audio_start_stop_idempotent_witness :
    switch_audio_stop 5 (some idle_session) = { ret := true, swa := some idle_session, trace := [] } ∧
    (switch_audio_start 0 idle_session false).ret = true ∧
    switch_audio_start 9 { idle_session with is_paused := false } true
      = { ret := true, swa := some { idle_session with is_paused := false }, trace := [] } :=
  ⟨(switch_audio_start_stop_idempotent idle_session 5 9 false true).2.1 rfl, rfl,
   ((switch_audio_start_stop_idempotent idle_session 0 9 false true).2.2
      { idle_session with is_paused := false } rfl rfl).2.1⟩

/-- C9: a start on a paused session (a stop on a running one) makes exactly one service
call; when that call fails the operation reports false and the session, and with it
switch_audio_alive, is as before; when it succeeds the operation reports true and only
the paused flag changes, to false (start) or true (stop). -/
theorem switch_audio_start_stop_transition (swa : switch_audio_t) (status : Nat)
    (is_shutdown : Bool) :
    (swa.is_paused = true → status ≠ 0 →
      switch_audio_start status swa is_shutdown
        = { ret := false, swa := some swa, trace := [call.audio_ipc_output_start status] } ∧
      switch_audio_alive (switch_audio_start status swa is_shutdown).swa
        = switch_audio_alive (some swa)) ∧
    (swa.is_paused = false → status ≠ 0 →
      switch_audio_stop status (some swa)
        = { ret := false, swa := some swa, trace := [call.audio_ipc_output_stop status] } ∧
      switch_audio_alive (switch_audio_stop status (some swa)).swa
        = switch_audio_alive (some swa)) ∧
    (swa.is_paused = true → status = 0 →
      switch_audio_start status swa is_shutdown
        = { ret := true, swa := some { swa with is_paused := false },
            trace := [call.audio_ipc_output_start status] }) ∧
    (swa.is_paused = false → status = 0 →
      switch_audio_stop status (some swa)
        = { ret := true, swa := some { swa with is_paused := true },
            trace := [call.audio_ipc_output_stop status] }) := by
  refine ⟨?_, ?_, ?_, ?_⟩
  · intro hp hs
    have h : switch_audio_start status swa is_shutdown
        = { ret := false, swa := some swa, trace := [call.audio_ipc_output_start status] } := by
      simp [switch_audio_start, hp, hs]
    exact ⟨h, by rw [h]⟩
  · intro hp hs
    have h : switch_audio_stop status (some swa)
        = { ret := false, swa := some swa, trace := [call.audio_ipc_output_stop status] } := by
      simp [switch_audio_stop, hp, hs]
    exact ⟨h, by rw [h]⟩
  · intro hp hs
    simp [switch_audio_start, hp, hs]
  · intro hp hs
    simp [switch_audio_stop, hp, hs]

/-- C9 at a concrete session: on the paused idle_session a start whose service call
answers 3 fails and changes nothing, one answering 0 succeeds and clears the flag. -/
theorem switch_audio_start_stop_transition_witness :
    switch_audio_start 3 idle_session false
      = { ret := false, swa := some idle_session, trace := [call.audio_ipc_output_start 3] } ∧
    switch_audio_start 0 idle_session false
      = { ret := true, swa := some { idle_session with is_paused := false },
          trace := [call.audio_ipc_output_start 0] } ∧
    switch_audio_stop 4 (some { idle_session with is_paused := false })
      = { ret := false, swa := some { idle_session with is_paused := false },
          trace := [call.audio_ipc_output_stop 4] } :=
  ⟨((switch_audio_start_stop_transition idle_session 3 false).1 rfl (by decide)).1,
   (switch_audio_start_stop_transition idle_session 0 false).2.2.1 rfl rfl,
   ((switch_audio_start_stop_transition { idle_session with is_paused := false } 4 false).2.1
      rfl (by decide)).1⟩

/-! ### Initialization -/

/-- The for loop of switch_audio_init touches the pool buffers only. -/
theorem init_buffers_fields (env : init_env) (l : List (Fin 3)) :
    ∀ (swa : switch_audio_t) (tr : List call) (swa1 : switch_audio_t) (tr1 : List call),
      init_buffers env l swa tr = Except.ok (swa1, tr1) →
      swa1.output = swa.output ∧ swa1.event = swa.event ∧ swa1.blocking = swa.blocking ∧
      swa1.is_paused = swa.is_paused ∧ swa1.latency = swa.latency ∧
      swa1.current_buffer = swa.current_buffer ∧ swa1.last_append = swa.last_append := by
  induction l with
  | nil =>
    intro swa tr swa1 tr1 h
    simp only [init_buffers, Except.ok.injEq, Prod.mk.injEq] at h
    obtain ⟨rfl, -⟩ := h
    exact ⟨rfl, rfl, rfl, rfl, rfl, rfl, rfl⟩
  | cons i rest ih =>
    intro swa tr swa1 tr1 h
    simp only [init_buffers] at h
    split_ifs at h
    have hrest := ih _ _ _ _ h
    exact hrest

/-- The for loop of switch_audio_init, when it runs to its end: every allocation and
submit succeeded, the calls are those of init_buffer_calls, and each listed buffer has
capacity and fill length sample_buffer_size while the others are untouched. -/
theorem init_buffers_ok (env : init_env) (l : List (Fin 3)) :
    ∀ (swa : switch_audio_t) (tr : List call) (swa1 : switch_audio_t) (tr1 : List call),
      init_buffers env l swa tr = Except.ok (swa1, tr1) →
      tr1 = tr ++ init_buffer_calls l ∧
      (∀ i, i ∈ l → (swa1.buffers i).buffer_size = sample_buffer_size ∧
        (swa1.buffers i).data_size = sample_buffer_size) ∧
      (∀ i, i ∉ l → swa1.buffers i = swa.buffers i) := by
  induction l with
  | nil =>
    intro swa tr swa1 tr1 h
    simp only [init_buffers, Except.ok.injEq, Prod.mk.injEq] at h
    obtain ⟨rfl, rfl⟩ := h
    simp [init_buffer_calls]
  | cons j rest ih =>
    intro swa tr swa1 tr1 h
    simp only [init_buffers] at h
    split_ifs at h with h1 h2
    obtain ⟨ht, hin, hout⟩ := ih _ _ _ _ h
    have hsome : (env.pages j).isSome = true := by
      cases hp : env.pages j with
      | none => simp [hp] at h1
      | some v => rfl
    have hst : env.append_status j = 0 := by
      by_contra hne
      exact h2 hne
    refine ⟨?_, ?_, ?_⟩
    · rw [ht, hsome, hst]
      simp [init_buffer_calls, List.append_assoc]
    · intro i hi
      by_cases hir : i ∈ rest
      · exact hin i hir
      · have hij : i = j := by
          rcases List.mem_cons.mp hi with h3 | h3
          · exact h3
          · exact absurd h3 hir
        subst hij
        rw [hout i hir]
        simp
    · intro i hi
      have hir : i ∉ rest := fun hh => hi (List.mem_cons_of_mem _ hh)
      have hij : i ≠ j := fun hh => hi (hh ▸ List.mem_cons_self _ _)
      rw [hout i hir]
      simp [Function.update, hij]

/-- A successful switch_audio_init: every service call answered 0, the calls made are
the fixed sequence ending in the three allocate-and-submit pairs and the tick, all three
pool buffers have capacity and fill length sample_buffer_size, and no buffer is checked
out. -/
theorem switch_audio_init_success (env : init_env) (device : String)
    (rate latency block_frames : Nat) (swa : switch_audio_t)
    (h : (switch_audio_init env device rate latency block_frames).swa = some swa) :
    (switch_audio_init env device rate latency block_frames).trace
      = [call.calloc true, call.audio_ipc_init 0, call.audio_ipc_list_outputs 0 1,
         call.audio_ipc_open_output 0, call.audio_ipc_output_register_buffer_event 0]
        ++ init_buffer_calls [0, 1, 2] ++ [call.svcGetSystemTick env.tick] ∧
    (∀ i, (swa.buffers i).buffer_size = sample_buffer_size ∧
      (swa.buffers i).data_size = sample_buffer_size) ∧
    swa.current_buffer = none := by
  by_cases h1 : env.calloc_ok = true
  swap
  · simp [switch_audio_init, h1] at h
  by_cases h2 : env.init_status = 0
  swap
  · simp [switch_audio_init, h1, h2, fail] at h
  by_cases h3 : env.list_status = 0
  swap
  · simp [switch_audio_init, h1, h2, h3, fail, fail_audio_ipc] at h
  by_cases h4 : env.num_names = 1
  swap
  · simp [switch_audio_init, h1, h2, h3, h4, fail, fail_audio_ipc] at h
  by_cases h5 : env.open_status = 0
  swap
  · simp [switch_audio_init, h1, h2, h3, h4, h5, fail, fail_audio_ipc] at h
  by_cases h6 : env.output.sample_rate = 48000
  swap
  · simp [switch_audio_init, h1, h2, h3, h4, h5, h6, sample_rate, fail, fail_audio_ipc,
      fail_audio_output] at h
  by_cases h7 : env.output.num_channels = 2
  swap
  · simp [switch_audio_init, h1, h2, h3, h4, h5, h6, h7, sample_rate, num_channels, fail,
      fail_audio_ipc, fail_audio_output] at h
  by_cases h8 : env.output.sample_format = PCM_INT16
  swap
  · simp [switch_audio_init, h1, h2, h3, h4, h5, h6, h7, h8, sample_rate, num_channels, fail,
      fail_audio_ipc, fail_audio_output] at h
  by_cases h9 : env.register_status = 0
  swap
  · simp [switch_audio_init, h1, h2, h3, h4, h5, h6, h7, h8, h9, sample_rate, num_channels,
      fail, fail_audio_ipc, fail_audio_output] at h
  simp only [switch_audio_init, h1, h2, h3, h4, h5, h6, h7, h8, h9, sample_rate, num_channels,
    Bool.not_true, Bool.false_eq_true, if_false, ne_eq, not_true_eq_false] at h ⊢
  split at h
  · simp [fail, fail_audio_ipc, fail_audio_output] at h
  · rename_i swa2 tr2 hb
    obtain ⟨ht, hin, -⟩ := init_buffers_ok env _ _ _ _ _ hb
    simp only [Option.some.injEq] at h
    subst h
    simp only [hb, ht]
    refine ⟨by simp, ?_, trivial⟩
    intro i
    exact hin i (by fin_cases i <;> simp)

/-- C10: switch_audio_init returns a session only when the enumeration reported exactly
one name and the endpoint reported rate 48000, 2 channels and PCM_INT16, and then the
rate stored through new_rate is 48000 and the session is paused, has no buffer checked
out, stores the requested latency and blocks exactly when block_frames is non-zero; with
a count of 0 or at least 2, or any of the three values different, it returns NULL. -/
theorem switch_audio_init_negotiation (env : init_env) (device : String)
    (rate latency block_frames : Nat) :
    (∀ swa, (switch_audio_init env device rate latency block_frames).swa = some swa →
      env.num_names = 1 ∧ env.output.sample_rate = 48000 ∧ env.output.num_channels = 2 ∧
      env.output.sample_format = PCM_INT16 ∧
      (switch_audio_init env device rate latency block_frames).new_rate = some 48000 ∧
      swa.is_paused = true ∧ swa.current_buffer = none ∧ swa.latency = latency ∧
      (swa.blocking = true ↔ block_frames ≠ 0)) ∧
    ((env.num_names = 0 ∨ 2 ≤ env.num_names ∨ env.output.sample_rate ≠ 48000 ∨
        env.output.num_channels ≠ 2 ∨ env.output.sample_format ≠ PCM_INT16) →
      (switch_audio_init env device rate latency block_frames).swa = none) := by
  have main : ∀ swa, (switch_audio_init env device rate latency block_frames).swa = some swa →
      env.num_names = 1 ∧ env.output.sample_rate = 48000 ∧ env.output.num_channels = 2 ∧
      env.output.sample_format = PCM_INT16 ∧
      (switch_audio_init env device rate latency block_frames).new_rate = some 48000 ∧
      swa.is_paused = true ∧ swa.current_buffer = none ∧ swa.latency = latency ∧
      (swa.blocking = true ↔ block_frames ≠ 0) := by
    intro swa h
    by_cases h1 : env.calloc_ok = true
    swap
    · simp [switch_audio_init, h1] at h
    by_cases h2 : env.init_status = 0
    swap
    · simp [switch_audio_init, h1, h2, fail] at h
    by_cases h3 : env.list_status = 0
    swap
    · simp [switch_audio_init, h1, h2, h3, fail, fail_audio_ipc] at h
    by_cases h4 : env.num_names = 1
    swap
    · simp [switch_audio_init, h1, h2, h3, h4, fail, fail_audio_ipc] at h
    by_cases h5 : env.open_status = 0
    swap
    · simp [switch_audio_init, h1, h2, h3, h4, h5, fail, fail_audio_ipc] at h
    by_cases h6 : env.output.sample_rate = 48000
    swap
    · simp [switch_audio_init, h1, h2, h3, h4, h5, h6, sample_rate, fail, fail_audio_ipc,
        fail_audio_output] at h
    by_cases h7 : env.output.num_channels = 2
    swap
    · simp [switch_audio_init, h1, h2, h3, h4, h5, h6, h7, sample_rate, num_channels, fail,
        fail_audio_ipc, fail_audio_output] at h
    by_cases h8 : env.output.sample_format = PCM_INT16
    swap
    · simp [switch_audio_init, h1, h2, h3, h4, h5, h6, h7, h8, sample_rate, num_channels, fail,
        fail_audio_ipc, fail_audio_output] at h
    by_cases h9 : env.register_status = 0
    swap
    · simp [switch_audio_init, h1, h2, h3, h4, h5, h6, h7, h8, h9, sample_rate, num_channels,
        fail, fail_audio_ipc, fail_audio_output] at h
    simp only [switch_audio_init, h1, h2, h3, h4, h5, h6, h7, h8, h9, sample_rate, num_channels,
      Bool.not_true, Bool.false_eq_true, if_false, ne_eq, not_true_eq_false] at h ⊢
    split at h
    · simp [fail, fail_audio_ipc, fail_audio_output] at h
    · rename_i swa2 tr2 hb
      have hf := init_buffers_fields env _ _ _ _ _ hb
      simp only [Option.some.injEq] at h
      subst h
      refine ⟨trivial, trivial, trivial, trivial, ?_, rfl, rfl, rfl, by simp⟩
      simp only [hb, hf.1, h6]
  refine ⟨main, ?_⟩
  intro hbad
  cases hres : (switch_audio_init env device rate latency block_frames).swa with
  | none => rfl
  | some swa =>
    obtain ⟨a, b, c, d, -⟩ := main swa hres
    omega

/-- C10 at a concrete service: with good_init_env the call succeeds, and the session it
returns has the properties listed. -/
theorem switch_audio_init_negotiation_witness :
    ∃ swa, (switch_audio_init good_init_env "" 44100 32 1).swa = some swa ∧
      (switch_audio_init good_init_env "" 44100 32 1).new_rate = some 48000 ∧
      swa.is_paused = true ∧ swa.current_buffer = none ∧ swa.latency = 32 ∧
      swa.blocking = true :=
  ⟨_, rfl,
   ((switch_audio_init_negotiation good_init_env "" 44100 32 1).1 _ rfl).2.2.2.2.1,
   ((switch_audio_init_negotiation good_init_env "" 44100 32 1).1 _ rfl).2.2.2.2.2.1,
   ((switch_audio_init_negotiation good_init_env "" 44100 32 1).1 _ rfl).2.2.2.2.2.2.1,
   ((switch_audio_init_negotiation good_init_env "" 44100 32 1).1 _ rfl).2.2.2.2.2.2.2.1,
   ((switch_audio_init_negotiation good_init_env "" 44100 32 1).1 _ rfl).2.2.2.2.2.2.2.2.2
     (by decide)⟩

/-! ### Invariants of the reachable sessions -/

/-- Lines 94-96 keep every pool buffer within the capacity: the copy is clamped to the
space left. -/
theorem copy_bytes_pool (swa0 : switch_audio_t) (b : Fin 3) (buf : Nat → Nat) (size : Nat)
    (hpool : ∀ i, (swa0.buffers i).data_size ≤ sample_buffer_size ∧
      (swa0.buffers i).buffer_size = sample_buffer_size) :
    ∀ i, ((copy_bytes swa0 b buf (clamp_to_write size (swa0.buffers b).data_size)).buffers i).data_size
        ≤ sample_buffer_size ∧
      ((copy_bytes swa0 b buf (clamp_to_write size (swa0.buffers b).data_size)).buffers i).buffer_size
        = sample_buffer_size := by
  intro i
  by_cases hi : i = b
  · subst hi
    obtain ⟨h1, h2⟩ := copy_bytes_data_size swa0 i buf
      (clamp_to_write size (swa0.buffers i).data_size)
    refine ⟨?_, h2⟩
    rw [h1, clamp_to_write_eq size _ (hpool i).1]
    have hm := min_le_right size (sample_buffer_size - (swa0.buffers i).data_size)
    have hd := (hpool i).1
    exact le_trans (Nat.mod_le _ _) (by omega)
  · have : (copy_bytes swa0 b buf (clamp_to_write size (swa0.buffers b).data_size)).buffers i
        = swa0.buffers i := by
      simp [copy_bytes, Function.update, hi]
    rw [this]
    exact hpool i

/-- Lines 91-108 keep every pool buffer within the capacity and of the fixed declared
capacity, however they end. -/
theorem copy_and_flush_pool (env : write_env) (swa0 : switch_audio_t) (b : Fin 3)
    (buf : Nat → Nat) (size : Nat) (tr : List call) (swa1 : switch_audio_t)
    (hpool : ∀ i, (swa0.buffers i).data_size ≤ sample_buffer_size ∧
      (swa0.buffers i).buffer_size = sample_buffer_size)
    (hswa : (copy_and_flush env swa0 b buf size tr).swa = some swa1) :
    ∀ i, (swa1.buffers i).data_size ≤ sample_buffer_size ∧
      (swa1.buffers i).buffer_size = sample_buffer_size := by
  have hcopy := copy_bytes_pool swa0 b buf size hpool
  rcases copy_and_flush_spec env swa0 b buf size tr _ _ _ rfl rfl rfl with
    ⟨-, -, h⟩ | ⟨-, -, h⟩ | ⟨-, h⟩
  · rw [h] at hswa
    simp only [Option.some.injEq] at hswa
    subst hswa
    exact hcopy
  · rw [h] at hswa
    simp only [Option.some.injEq] at hswa
    subst hswa
    exact hcopy
  · rw [h] at hswa
    simp only [Option.some.injEq] at hswa
    subst hswa
    exact hcopy

/-- Line 88 keeps every pool buffer within the capacity. -/
theorem reset_data_size_pool (swa0 : switch_audio_t) (b : Fin 3)
    (hpool : ∀ i, (swa0.buffers i).data_size ≤ sample_buffer_size ∧
      (swa0.buffers i).buffer_size = sample_buffer_size) :
    ∀ i, ((reset_data_size swa0 b).buffers i).data_size ≤ sample_buffer_size ∧
      ((reset_data_size swa0 b).buffers i).buffer_size = sample_buffer_size := by
  intro i
  by_cases hi : i = b
  · subst hi
    simp only [reset_data_size, Function.update_same]
    exact ⟨Nat.zero_le _, (hpool i).2⟩
  · have : (reset_data_size swa0 b).buffers i = swa0.buffers i := by
      simp [reset_data_size, Function.update, hi]
    rw [this]
    exact hpool i

/-- A write that returns keeps every pool buffer within the capacity. -/
theorem switch_audio_write_pool (env : write_env) (fuel : Nat) (swa : switch_audio_t)
    (buf : Nat → Nat) (size : Nat) (r : result Int) (swa1 : switch_audio_t)
    (hpool : ∀ i, (swa.buffers i).data_size ≤ sample_buffer_size ∧
      (swa.buffers i).buffer_size = sample_buffer_size)
    (hrun : switch_audio_write env fuel (some swa) buf size = some r)
    (hswa : r.swa = some swa1) :
    ∀ i, (swa1.buffers i).data_size ≤ sample_buffer_size ∧
      (swa1.buffers i).buffer_size = sample_buffer_size := by
  rcases switch_audio_write_spec env fuel swa buf size r hrun with
    ⟨-, m, -, -, -, -, -, hr⟩ | ⟨-, -, -, -, hr⟩ | ⟨b, -, hr⟩ |
    ⟨-, m, b, -, -, -, -, -, -, hr⟩
  · subst hr
    simp only [Option.some.injEq] at hswa
    subst hswa
    exact hpool
  · subst hr
    simp only [Option.some.injEq] at hswa
    subst hswa
    exact hpool
  · subst hr
    exact copy_and_flush_pool env swa b buf size [] swa1 hpool hswa
  · subst hr
    exact copy_and_flush_pool env _ b buf size _ swa1
      (reset_data_size_pool { swa with current_buffer := some b } b hpool) hswa

/-- The session left by start, stop and set_nonblock_state differs from the one before in
the paused or blocking flag at most. -/
theorem lifecycle_fields (swa swa1 : switch_audio_t) (status : Nat) (flag : Bool) :
    ((switch_audio_start status swa flag).swa = some swa1 →
      swa1.buffers = swa.buffers ∧ swa1.current_buffer = swa.current_buffer ∧
      (switch_audio_start status swa flag).trace.countP call.is_memcpy = 0 ∧
      ∀ q, queued_after q (switch_audio_start status swa flag).trace = q) ∧
    ((switch_audio_stop status (some swa)).swa = some swa1 →
      swa1.buffers = swa.buffers ∧ swa1.current_buffer = swa.current_buffer ∧
      (switch_audio_stop status (some swa)).trace.countP call.is_memcpy = 0 ∧
      ∀ q, queued_after q (switch_audio_stop status (some swa)).trace = q) ∧
    (switch_audio_set_nonblock_state (some swa) flag = some swa1 →
      swa1.buffers = swa.buffers ∧ swa1.current_buffer = swa.current_buffer) := by
  refine ⟨?_, ?_, ?_⟩
  · intro h
    unfold switch_audio_start at h ⊢
    split_ifs at h ⊢ <;> simp only [Option.some.injEq] at h <;> subst h <;>
      simp [call.is_memcpy, queued_after, queued_step]
  · intro h
    unfold switch_audio_stop at h ⊢
    simp only at h ⊢
    split_ifs at h ⊢ <;> simp only [Option.some.injEq] at h <;> subst h <;>
      simp [call.is_memcpy, queued_after, queued_step]
  · intro h
    simp only [switch_audio_set_nonblock_state, Option.some.injEq] at h
    subst h
    exact ⟨rfl, rfl⟩

/-- C7: in every session reachable from a successful switch_audio_init through write,
start, stop and set_nonblock_state calls, each of the three pool buffers has fill length
(data_size) at most sample_buffer_size and declared capacity (buffer_size) equal to
sample_buffer_size. -/
theorem pool_fill_invariant (swa : switch_audio_t) (hist : List call)
    (h : Reachable swa hist) :
    ∀ i : Fin 3, (swa.buffers i).data_size ≤ sample_buffer_size ∧
      (swa.buffers i).buffer_size = sample_buffer_size := by
  induction h with
  | init env device rate latency block_frames swa hs =>
    intro i
    obtain ⟨-, hb, -⟩ := switch_audio_init_success env device rate latency block_frames swa hs
    exact ⟨le_of_eq (hb i).2, (hb i).1⟩
  | write env fuel buf size swa swa1 hist r _ hrun hswa ih =>
    exact switch_audio_write_pool env fuel swa buf size r swa1 ih hrun hswa
  | start status is_shutdown swa swa1 hist _ hswa ih =>
    rw [((lifecycle_fields swa swa1 status is_shutdown).1 hswa).1]
    exact ih
  | stop status swa swa1 hist _ hswa ih =>
    rw [((lifecycle_fields swa swa1 status false).2.1 hswa).1]
    exact ih
  | set_nonblock_state state swa swa1 hist _ hswa ih =>
    rw [((lifecycle_fields swa swa1 0 state).2.2 hswa).1]
    exact ih

/-- C7 at a concrete history: after switch_audio_init served by good_init_env and a
write of 100 bytes served by ready_env, buffer 0 holds 100 bytes and every pool buffer
is within the capacity. -/
theorem pool_fill_invariant_witness :
    ∃ swa hist, Reachable swa hist ∧ (swa.buffers 0).data_size = 100 ∧
      ∀ i : Fin 3, (swa.buffers i).data_size ≤ sample_buffer_size ∧
        (swa.buffers i).buffer_size = sample_buffer_size :=
  ⟨_, _,
   Reachable.write ready_env 0 ones 100 _ _ _ _
     (Reachable.init good_init_env "" 44100 32 1 _ rfl) rfl rfl,
   rfl,
   pool_fill_invariant _ _
     (Reachable.write ready_env 0 ones 100 _ _ _ _
       (Reachable.init good_init_env "" 44100 32 1 _ rfl) rfl rfl)⟩

/-! ### Ownership of the pool buffers -/

/-- The queued set after two histories in a row. -/
theorem queued_after_append (q : Finset (Fin 3)) (a b : List call) :
    queued_after q (a ++ b) = queued_after (queued_after q a) b := by
  simp [queued_after, List.foldl_append]

/-- Copies of two histories in a row. -/
theorem copies_unqueued_append (a : List call) :
    ∀ (q : Finset (Fin 3)) (b : List call),
      copies_unqueued q (a ++ b)
        = (copies_unqueued q a && copies_unqueued (queued_after q a) b) := by
  induction a with
  | nil =>
    intro q b
    simp [copies_unqueued, queued_after]
  | cons c rest ih =>
    intro q b
    cases c <;> simp [copies_unqueued, queued_after, ih, Bool.and_assoc]

/-- A history without memcpy calls copies into no queued buffer. -/
theorem copies_unqueued_of_no_memcpy (tr : List call) :
    ∀ (q : Finset (Fin 3)), tr.countP call.is_memcpy = 0 → copies_unqueued q tr = true := by
  induction tr with
  | nil =>
    intro q _
    rfl
  | cons c rest ih =>
    intro q h
    have hrest : rest.countP call.is_memcpy = 0 := by
      rw [List.countP_cons] at h
      omega
    cases c <;>
      first
      | (simp only [copies_unqueued]; exact ih _ hrest)
      | (simp [List.countP_cons, call.is_memcpy] at h)

/-- The passes of the loop body, the last one split off. -/
theorem wait_cycles_snoc (env : write_env) (event : Nat) :
    ∀ (m k : Nat),
      wait_cycles env event k (m + 1) = wait_cycles env event k m ++ wait_cycle env event (k + m) := by
  intro m
  induction m with
  | zero =>
    intro k
    simp [wait_cycles]
  | succ m ih =>
    intro k
    rw [wait_cycles, ih (k + 1), wait_cycles, List.append_assoc]
    rw [show k + 1 + m = k + (m + 1) by omega]

/-- The trace of an acquisition that made m + 1 queries ends with query m. -/
theorem acquire_trace_snoc (env : write_env) (event : Nat) (m : Nat) :
    ∃ pre, released_buffer_call env 0 :: wait_cycles env event 1 m
      = pre ++ [released_buffer_call env m] := by
  cases m with
  | zero => exact ⟨[], by simp [wait_cycles]⟩
  | succ m =>
    refine ⟨released_buffer_call env 0 :: wait_cycles env event 1 m
      ++ [call.svcWaitSynchronization 33333333, call.svcResetSignal event], ?_⟩
    rw [wait_cycles_snoc, wait_cycle, Nat.add_comm 1 m]
    simp

/-- The last query of an acquisition that made m + 1 queries is in its trace. -/
theorem acquire_trace_last_mem (env : write_env) (event : Nat) (m : Nat) :
    released_buffer_call env m ∈ released_buffer_call env 0 :: wait_cycles env event 1 m := by
  obtain ⟨pre, hpre⟩ := acquire_trace_snoc env event m
  rw [hpre]
  simp

/-- The buffer the last query of an acquisition releases (the query succeeds and reports
at least one released buffer) is not in the queued set after the acquisition. -/
theorem acquire_trace_released (env : write_env) (event : Nat) (m : Nat) (q : Finset (Fin 3))
    (c : Fin 3) (hc : (env.released m).buffer = some c) (hs : (env.released m).status = 0)
    (hn : 1 ≤ (env.released m).num) :
    c ∉ queued_after q (released_buffer_call env 0 :: wait_cycles env event 1 m) := by
  obtain ⟨pre, hpre⟩ := acquire_trace_snoc env event m
  rw [hpre, queued_after_append]
  simp [queued_after, released_buffer_call, hc, hs, hn, queued_step]

/-- Lines 91-108 on a checked-out buffer b that is not queued: the copy goes to b while
it is not queued, and the buffer still checked out afterwards, if any, is not queued. -/
theorem copy_and_flush_owner (env : write_env) (swa0 : switch_audio_t) (b : Fin 3)
    (buf : Nat → Nat) (size : Nat) (tr : List call) (swa1 : switch_audio_t)
    (q : Finset (Fin 3)) (hb : b ∉ q) (hcur : swa0.current_buffer = some b)
    (hswa : (copy_and_flush env swa0 b buf size tr).swa = some swa1) :
    ∃ ext, (copy_and_flush env swa0 b buf size tr).trace = tr ++ ext ∧
      (∀ c, swa1.current_buffer = some c → c ∉ queued_after q ext) ∧
      copies_unqueued q ext = true := by
  rcases copy_and_flush_spec env swa0 b buf size tr _ _ _ rfl rfl rfl with
    ⟨-, hst, h⟩ | ⟨-, hst, h⟩ | ⟨-, h⟩
  · rw [h] at hswa ⊢
    simp only [Option.some.injEq] at hswa
    subst hswa
    refine ⟨_, rfl, ?_, ?_⟩
    · intro c hc
      have hcb : c = b := by
        have : (copy_bytes swa0 b buf (clamp_to_write size (swa0.buffers b).data_size)).current_buffer
            = some b := hcur
        rw [this] at hc
        exact (Option.some.inj hc).symm
      subst hcb
      simpa [queued_after, queued_step, hst] using hb
    · simp [copies_unqueued, queued_step, hb]
  · rw [h] at hswa ⊢
    simp only [Option.some.injEq] at hswa
    subst hswa
    refine ⟨_, rfl, ?_, ?_⟩
    · intro c hc
      exact absurd hc (by simp)
    · simp [copies_unqueued, queued_step, hb]
  · rw [h] at hswa ⊢
    simp only [Option.some.injEq] at hswa
    subst hswa
    refine ⟨_, rfl, ?_, ?_⟩
    · intro c hc
      have hcb : c = b := by
        have : ({ copy_bytes swa0 b buf (clamp_to_write size (swa0.buffers b).data_size) with
            last_append := env.tick } : switch_audio_t).current_buffer = some b := hcur
        rw [this] at hc
        exact (Option.some.inj hc).symm
      subst hcb
      simpa [queued_after, queued_step] using hb
    · simp [copies_unqueued, queued_step, hb]

/-- A write that returns, started with the checked-out buffer (if any) outside the queued
set q, every query of which that left a handle succeeded and reported at least one
released buffer: every copy it makes goes to a buffer outside the queued set of that
moment, and the buffer checked out when it returns, if any, is outside the queued set of
then. -/
theorem switch_audio_write_owner (env : write_env) (fuel : Nat) (swa : switch_audio_t)
    (buf : Nat → Nat) (size : Nat) (r : result Int) (swa1 : switch_audio_t)
    (q : Finset (Fin 3)) (hq : ∀ b, swa.current_buffer = some b → b ∉ q)
    (hrun : switch_audio_write env fuel (some swa) buf size = some r)
    (hswa : r.swa = some swa1)
    (hrel : ∀ st num b, call.audio_ipc_output_get_released_buffer st num (some b) ∈ r.trace →
      st = 0 ∧ 1 ≤ num) :
    (∀ c, swa1.current_buffer = some c → c ∉ queued_after q r.trace) ∧
    copies_unqueued q r.trace = true := by
  rcases switch_audio_write_spec env fuel swa buf size r hrun with
    ⟨-, m, -, -, -, -, hfail, hr⟩ | ⟨hc, -, -, -, hr⟩ | ⟨b, hc, hr⟩ |
    ⟨-, m, b, -, -, -, -, hb, -, hr⟩
  · subst hr
    simp only [Option.some.injEq] at hswa
    subst hswa
    refine ⟨fun c hc => ?_,
      copies_unqueued_of_no_memcpy _ q (acquire_trace_count env swa.event m).2.2.2.2⟩
    have hc1 : (env.released m).buffer = some c := hc
    have hmem : call.audio_ipc_output_get_released_buffer (env.released m).status
        (env.released m).num (some c)
        ∈ released_buffer_call env 0 :: wait_cycles env swa.event 1 m := by
      rw [← hc1]
      exact acquire_trace_last_mem env swa.event m
    exact absurd (hrel _ _ _ hmem).1 hfail
  · subst hr
    simp only [Option.some.injEq] at hswa
    subst hswa
    refine ⟨fun c hcc => absurd (hc ▸ hcc) (by simp), copies_unqueued_of_no_memcpy _ q ?_⟩
    simp [released_buffer_call, call.is_memcpy]
  · subst hr
    obtain ⟨ext, hext, h1, h2⟩ := copy_and_flush_owner env swa b buf size [] swa1 q (hq b hc) hc
      hswa
    rw [hext]
    exact ⟨h1, h2⟩
  · subst hr
    have hmem : call.audio_ipc_output_get_released_buffer (env.released m).status
        (env.released m).num (some b)
        ∈ released_buffer_call env 0 :: wait_cycles env swa.event 1 m := by
      rw [← hb]
      exact acquire_trace_last_mem env swa.event m
    obtain ⟨ext0, hext0⟩ : ∃ ext0, (copy_and_flush env
        (reset_data_size { swa with current_buffer := some b } b) b buf size
        (released_buffer_call env 0 :: wait_cycles env swa.event 1 m)).trace
        = (released_buffer_call env 0 :: wait_cycles env swa.event 1 m) ++ ext0 := by
      rcases copy_and_flush_spec env (reset_data_size { swa with current_buffer := some b } b) b
        buf size (released_buffer_call env 0 :: wait_cycles env swa.event 1 m) _ _ _ rfl rfl rfl
        with ⟨-, -, h⟩ | ⟨-, -, h⟩ | ⟨-, h⟩ <;> exact ⟨_, by rw [h]⟩
    have hgood := hrel _ _ _ (by rw [hext0]; exact List.mem_append_left _ hmem)
    obtain ⟨ext, hext, h1, h2⟩ := copy_and_flush_owner env
      (reset_data_size { swa with current_buffer := some b } b) b buf size
      (released_buffer_call env 0 :: wait_cycles env swa.event 1 m) swa1
      (queued_after q (released_buffer_call env 0 :: wait_cycles env swa.event 1 m))
      (acquire_trace_released env swa.event m q b hb hgood.1 hgood.2) rfl hswa
    rw [hext, queued_after_append, copies_unqueued_append]
    refine ⟨h1, ?_⟩
    rw [copies_unqueued_of_no_memcpy _ q (acquire_trace_count env swa.event m).2.2.2.2, h2]
    rfl

/-- The ownership invariant along histories in which the service leaves a handle only
when it releases the buffer: if every released-buffer query of the history that left a
handle succeeded and reported at least one released buffer, then in a session reachable
from a successful switch_audio_init through write, start, stop and set_nonblock_state
calls the checked-out buffer, when present, is not in the queued set, and every copy of
the history went to a buffer that was not in the queued set at the moment of the copy. -/
theorem ownership_of_released_handles (swa : switch_audio_t) (hist : List call)
    (h : Reachable swa hist) :
    (∀ st num b, call.audio_ipc_output_get_released_buffer st num (some b) ∈ hist →
      st = 0 ∧ 1 ≤ num) →
    (∀ b, swa.current_buffer = some b → b ∉ queued hist) ∧
    copies_unqueued ∅ hist = true := by
  induction h with
  | init env device rate latency block_frames swa hs =>
    intro _
    obtain ⟨ht, -, hc⟩ := switch_audio_init_success env device rate latency block_frames swa hs
    refine ⟨fun b hb => absurd (hc ▸ hb) (by simp), ?_⟩
    rw [ht]
    apply copies_unqueued_of_no_memcpy
    simp [init_buffer_calls, call.is_memcpy]
  | write env fuel buf size swa swa1 hist r _ hrun hswa ih =>
    intro hrel
    have ih1 := ih (fun st num b hm => hrel st num b (List.mem_append_left _ hm))
    obtain ⟨h1, h2⟩ := switch_audio_write_owner env fuel swa buf size r swa1 (queued hist) ih1.1
      hrun hswa (fun st num b hm => hrel st num b (List.mem_append_right _ hm))
    refine ⟨?_, ?_⟩
    · intro b hb
      rw [queued, queued_after_append]
      exact h1 b hb
    · rw [copies_unqueued_append, ih1.2]
      exact h2
  | start status is_shutdown swa swa1 hist _ hswa ih =>
    intro hrel
    have ih1 := ih (fun st num b hm => hrel st num b (List.mem_append_left _ hm))
    obtain ⟨-, hc, hm, hqa⟩ := (lifecycle_fields swa swa1 status is_shutdown).1 hswa
    refine ⟨?_, ?_⟩
    · intro b hb
      rw [queued, queued_after_append, hqa]
      exact ih1.1 b (hc ▸ hb)
    · rw [copies_unqueued_append, ih1.2, copies_unqueued_of_no_memcpy _ _ hm]
      rfl
  | stop status swa swa1 hist _ hswa ih =>
    intro hrel
    have ih1 := ih (fun st num b hm => hrel st num b (List.mem_append_left _ hm))
    obtain ⟨-, hc, hm, hqa⟩ := (lifecycle_fields swa swa1 status false).2.1 hswa
    refine ⟨?_, ?_⟩
    · intro b hb
      rw [queued, queued_after_append, hqa]
      exact ih1.1 b (hc ▸ hb)
    · rw [copies_unqueued_append, ih1.2, copies_unqueued_of_no_memcpy _ _ hm]
      rfl
  | set_nonblock_state state swa swa1 hist _ hswa ih =>
    intro hrel
    have ih1 := ih hrel
    obtain ⟨-, hc⟩ := (lifecycle_fields swa swa1 0 state).2.2 hswa
    exact ⟨fun b hb => ih1.1 b (hc ▸ hb), ih1.2⟩

/-- The invariant at a concrete history: after switch_audio_init served by good_init_env
and a write of 100 bytes served by ready_env, whose one query succeeds with a released
count of 1 and the handle of buffer 0, buffer 0 is checked out and the service holds the
other two. -/
theorem ownership_of_released_handles_instance :
    ∃ swa hist, Reachable swa hist ∧ swa.current_buffer = some 0 ∧ queued hist = {1, 2} ∧
      (∀ b, swa.current_buffer = some b → b ∉ queued hist) ∧
      copies_unqueued ∅ hist = true :=
  ⟨_, _,
   Reachable.write ready_env 0 ones 100 _ _ _ _
     (Reachable.init good_init_env "" 44100 32 1 _ rfl) rfl rfl,
   rfl, by decide,
   ownership_of_released_handles _ _
     (Reachable.write ready_env 0 ones 100 _ _ _ _
       (Reachable.init good_init_env "" 44100 32 1 _ rfl) rfl rfl)
     (fun st num b hm => by
       have hT : (switch_audio_init good_init_env "" 44100 32 1).trace
           ++ [call.audio_ipc_output_get_released_buffer 0 1 (some 0), call.memcpy 0 0 100,
               call.svcGetSystemTick 2000]
           = [call.calloc true, call.audio_ipc_init 0, call.audio_ipc_list_outputs 0 1,
              call.audio_ipc_open_output 0, call.audio_ipc_output_register_buffer_event 0,
              call.alloc_pages 192512 192512 true,
              call.audio_ipc_output_append_buffer 0 192512 192512 0,
              call.alloc_pages 192512 192512 true,
              call.audio_ipc_output_append_buffer 1 192512 192512 0,
              call.alloc_pages 192512 192512 true,
              call.audio_ipc_output_append_buffer 2 192512 192512 0,
              call.svcGetSystemTick 1000,
              call.audio_ipc_output_get_released_buffer 0 1 (some 0), call.memcpy 0 0 100,
              call.svcGetSystemTick 2000] := by decide
       have hm1 : call.audio_ipc_output_get_released_buffer st num (some b)
           ∈ (switch_audio_init good_init_env "" 44100 32 1).trace
           ++ [call.audio_ipc_output_get_released_buffer 0 1 (some 0), call.memcpy 0 0 100,
               call.svcGetSystemTick 2000] := hm
       rw [hT] at hm1
       simp at hm1
       exact ⟨hm1.1, by rw [hm1.2.1]⟩)⟩

/-- C6 (the code at the failing input): after a successful switch_audio_init with
blocking enabled the service holds all three pool buffers.  A write of 100 bytes whose
initial query reports no buffer and whose re-query in the loop answers with a released
count of 0 next to the handle of buffer 0 (so the service released nothing) leaves the
loop with that handle, copies the 100 bytes into buffer 0 and keeps it checked out: the
session is reachable, its checked-out buffer is in the service's queued set, and the copy
went into a queued buffer. -/
theorem ownership_broken_by_stale_handle :
    ∃ s0 r s1, fresh_session 32 1 = some s0 ∧ s0.blocking = true ∧ s0.current_buffer = none ∧
      queued (switch_audio_init good_init_env "" 44100 32 1).trace = {0, 1, 2} ∧
      switch_audio_write stale_env 1 (some s0) ones 100 = some r ∧ r.swa = some s1 ∧
      r.ret = 100 ∧
      r.trace = [call.audio_ipc_output_get_released_buffer 0 0 none,
        call.svcWaitSynchronization 33333333, call.svcResetSignal 7,
        call.audio_ipc_output_get_released_buffer 0 0 (some 0),
        call.memcpy 0 0 100, call.svcGetSystemTick 2000] ∧
      Reachable s1 ((switch_audio_init good_init_env "" 44100 32 1).trace ++ r.trace) ∧
      s1.current_buffer = some 0 ∧
      queued ((switch_audio_init good_init_env "" 44100 32 1).trace ++ r.trace) = {0, 1, 2} ∧
      0 ∈ queued ((switch_audio_init good_init_env "" 44100 32 1).trace ++ r.trace) ∧
      copies_unqueued ∅ ((switch_audio_init good_init_env "" 44100 32 1).trace ++ r.trace)
        = false :=
  ⟨_, _, _, rfl, rfl, rfl, by decide, rfl, rfl, by decide, by decide,
   Reachable.write stale_env 1 ones 100 _ _ _ _
     (Reachable.init good_init_env "" 44100 32 1 _ rfl) rfl rfl,
   rfl, by decide, by decide, by decide⟩

/-! ### Write-available space, threshold arithmetic and buffer size -/

/-- What switch_audio_write_avail returns with a buffer checked out: the declared
capacity of that buffer, whatever its fill length. -/
theorem switch_audio_write_avail_eq (swa : switch_audio_t) (b : Fin 3)
    (hc : swa.current_buffer = some b) :
    switch_audio_write_avail (some swa) = (swa.buffers b).buffer_size := by
  simp [switch_audio_write_avail, hc]

/-- C11 (the code at the failing input): after switch_audio_init and a write of 100 bytes
buffer 0 is checked out with fill length 100; switch_audio_write_avail returns the whole
capacity 192512, not the 192412 bytes of space left, and an immediately following write
of 192512 bytes consumes only 192412.  On an absent session it returns 0. -/
theorem switch_audio_write_avail_overstates :
    ∃ s0 r s1 r2, fresh_session 32 0 = some s0 ∧
      switch_audio_write ready_env 0 (some s0) ones 100 = some r ∧ r.swa = some s1 ∧
      s1.current_buffer = some 0 ∧ (s1.buffers 0).data_size = 100 ∧
      switch_audio_write_avail (some s1) = 192512 ∧
      sample_buffer_size - (s1.buffers 0).data_size = 192412 ∧
      switch_audio_write ready_env 0 (some s1) ones 192512 = some r2 ∧ r2.ret = 192412 ∧
      switch_audio_write_avail none = 0 :=
  ⟨_, _, _, _, rfl, rfl, rfl, rfl, rfl, by decide, by decide, rfl, by decide, rfl⟩

/-- C12 (the code at the failing input): latency 89479 fits the unsigned field, the exact
value of 48000*latency/1000 is 4294992, and the threshold line 98 computes is 24, the
32-bit product having wrapped; so a write of 25 bytes into a fresh buffer is submitted
at once. -/
theorem flush_threshold_wraps :
    89479 < 2 ^ unsigned_bits ∧ 48000 * 89479 / 1000 = 4294992 ∧ flush_threshold 89479 = 24 ∧
    ∃ s0 r s1, fresh_session 89479 0 = some s0 ∧ s0.latency = 89479 ∧
      switch_audio_write ready_env 0 (some s0) ones 25 = some r ∧ r.swa = some s1 ∧
      r.ret = 25 ∧ r.trace.countP call.is_append = 1 ∧ s1.current_buffer = none :=
  ⟨by decide, by decide, by decide, _, _, _, rfl, rfl, rfl, rfl, by decide, by decide, rfl⟩

/-- C13: switch_audio_buffer_size returns sample_buffer_size for every argument, and that
is 192512: a multiple of the page size 4096, at least 48000 * 2 * 2 = 192000, and the
smallest such multiple. -/
theorem switch_audio_buffer_size_value (data : Option switch_audio_t) :
    switch_audio_buffer_size data = sample_buffer_size ∧ sample_buffer_size = 192512 ∧
    sample_buffer_size % 4096 = 0 ∧ 48000 * 2 * 2 ≤ sample_buffer_size ∧
    sample_buffer_size - 4096 < 48000 * 2 * 2 ∧
    ∀ m, m % 4096 = 0 → 48000 * 2 * 2 ≤ m → sample_buffer_size ≤ m := by
  refine ⟨rfl, sample_buffer_size_eq, ?_, ?_, ?_, ?_⟩
  · rw [sample_buffer_size_eq]
  · rw [sample_buffer_size_eq]
    decide
  · rw [sample_buffer_size_eq]
    decide
  · intro m h1 h2
    rw [sample_buffer_size_eq]
    omega

/-! ### The pool after initialization -/

/-- C16: a switch_audio_init that succeeds made exactly three submit calls, for pool
buffers 0, 1, 2 in that order, each with declared capacity and fill length
sample_buffer_size and each succeeding; it made no copy; the session it returns has no
buffer checked out and every pool buffer with those two fields; so the service's queued
set holds all three buffers. -/
theorem switch_audio_init_presubmits (env : init_env) (device : String)
    (rate latency block_frames : Nat) (swa : switch_audio_t)
    (h : (switch_audio_init env device rate latency block_frames).swa = some swa) :
    (switch_audio_init env device rate latency block_frames).trace.filter call.is_append
      = [call.audio_ipc_output_append_buffer 0 sample_buffer_size sample_buffer_size 0,
         call.audio_ipc_output_append_buffer 1 sample_buffer_size sample_buffer_size 0,
         call.audio_ipc_output_append_buffer 2 sample_buffer_size sample_buffer_size 0] ∧
    (switch_audio_init env device rate latency block_frames).trace.countP call.is_append = 3 ∧
    (switch_audio_init env device rate latency block_frames).trace.countP call.is_memcpy = 0 ∧
    swa.current_buffer = none ∧
    (∀ i, (swa.buffers i).buffer_size = sample_buffer_size ∧
      (swa.buffers i).data_size = sample_buffer_size) ∧
    queued (switch_audio_init env device rate latency block_frames).trace = {0, 1, 2} := by
  obtain ⟨ht, hb, hc⟩ := switch_audio_init_success env device rate latency block_frames swa h
  rw [ht]
  refine ⟨?_, ?_, ?_, hc, hb, ?_⟩
  · simp [init_buffer_calls, List.filter, call.is_append]
  · simp [init_buffer_calls, List.countP_cons, call.is_append]
  · simp [init_buffer_calls, List.countP_cons, call.is_memcpy]
  · simp only [queued, queued_after, init_buffer_calls, List.cons_append, List.nil_append,
      List.append_nil, List.foldl_cons, List.foldl_nil, queued_step, if_true]
    decide

/-- C16 at a concrete service: with good_init_env the call succeeds and its trace is the
fixed sequence with the three submits. -/
theorem switch_audio_init_presubmits_witness :
    ∃ swa, fresh_session 32 1 = some swa ∧
      (switch_audio_init good_init_env "" 44100 32 1).trace.countP call.is_append = 3 ∧
      swa.current_buffer = none ∧
      queued (switch_audio_init good_init_env "" 44100 32 1).trace = {0, 1, 2} :=
  ⟨_, rfl,
   (switch_audio_init_presubmits good_init_env "" 44100 32 1 _ rfl).2.1,
   (switch_audio_init_presubmits good_init_env "" 44100 32 1 _ rfl).2.2.2.1,
   (switch_audio_init_presubmits good_init_env "" 44100 32 1 _ rfl).2.2.2.2.2⟩

/-! ### The availability test of the blocking loop and full buffers -/

/-- C18 (the code at the failing input): the answer "released count 0 next to the handle
of buffer 0" is treated as no buffer by the initial query (the non-blocking write returns
0 after that one query, nothing checked out), but the same answer to the re-query of the
blocking loop ends the loop: the blocking write checks buffer 0 out, resets its fill
length and copies the 100 bytes into it. -/
theorem wait_loop_ignores_count :
    (stale_first_env.released 0).num = 0 ∧ (stale_env.released 1).num = 0 ∧
    ∃ s0 r0 b0 r1 b1, fresh_session 32 0 = some s0 ∧
      switch_audio_write stale_first_env 0 (some s0) ones 100 = some r0 ∧
      r0.ret = 0 ∧ r0.trace = [call.audio_ipc_output_get_released_buffer 0 0 (some 0)] ∧
      r0.swa = some b0 ∧ b0.current_buffer = none ∧
      switch_audio_write stale_env 1 (some { s0 with blocking := true }) ones 100 = some r1 ∧
      r1.ret = 100 ∧
      r1.trace = [call.audio_ipc_output_get_released_buffer 0 0 none,
        call.svcWaitSynchronization 33333333, call.svcResetSignal 7,
        call.audio_ipc_output_get_released_buffer 0 0 (some 0),
        call.memcpy 0 0 100, call.svcGetSystemTick 2000] ∧
      r1.swa = some b1 ∧ b1.current_buffer = some 0 ∧ (b1.buffers 0).data_size = 100 :=
  ⟨rfl, rfl, _, _, _, _, _, rfl, rfl, rfl, rfl, rfl, rfl, rfl, rfl, by decide, rfl, rfl, rfl⟩

/-- C19 (the code at the failing input): with latency 4011 the threshold is 192528, above
the capacity 192512.  A write of 200000 bytes succeeds with 192512, makes no submit call
and leaves buffer 0 checked out with no space left; the next write of 1 byte succeeds
with 0, copies nothing, makes no submit call and leaves the same full buffer checked
out. -/
theorem full_buffer_stays_checked_out :
    flush_threshold 4011 = 192528 ∧ sample_buffer_size = 192512 ∧
    ∃ s0 r1 s1 r2 s2, fresh_session 4011 0 = some s0 ∧
      switch_audio_write ready_env 0 (some s0) ones 200000 = some r1 ∧
      r1.ret = 192512 ∧ r1.trace.countP call.is_append = 0 ∧ r1.swa = some s1 ∧
      s1.current_buffer = some 0 ∧ (s1.buffers 0).data_size = sample_buffer_size ∧
      switch_audio_write ready_env 0 (some s1) ones 1 = some r2 ∧
      r2.ret = 0 ∧ r2.trace = [call.memcpy 0 192512 0, call.svcGetSystemTick 2000] ∧
      r2.swa = some s2 ∧ s2.current_buffer = some 0 ∧
      (s2.buffers 0).data_size = sample_buffer_size :=
  ⟨by decide, sample_buffer_size_eq, _, _, _, _, _, rfl, rfl, by decide, by decide, rfl, rfl,
   by decide, rfl, by decide, by decide, rfl, rfl, by decide⟩

/-! ### Zero-length writes -/

/-- The members of the allocate-and-submit pairs. -/
theorem mem_init_buffer_calls (l : List (Fin 3)) (c : call) (h : c ∈ init_buffer_calls l) :
    c = call.alloc_pages sample_buffer_size sample_buffer_size true ∨
    ∃ i, c = call.audio_ipc_output_append_buffer i sample_buffer_size sample_buffer_size 0 := by
  induction l with
  | nil => simp [init_buffer_calls] at h
  | cons j rest ih =>
    simp only [init_buffer_calls, List.cons_append, List.nil_append, List.mem_cons] at h
    rcases h with h | h | h
    · exact Or.inl h
    · exact Or.inr ⟨j, h⟩
    · exact ih h

end SwitchAudio

namespace Wiiupro

/-! ## Theorems on the controller decoder -/

set_option maxRecDepth 100000 in
/-- On a byte, a bit of the complemented byte is set exactly when it is clear in the byte
itself. -/
theorem byte_complement_test : ∀ x, x < 256 → ∀ m ∈ [1, 2, 4, 8, 16, 32, 64, 128],
    decide (((x ^^^ 0xFF) % 256) &&& m ≠ 0) = decide (x &&& m = 0) := by
  decide

set_option maxRecDepth 100000 in
/-- On a byte, complementing twice gives the byte back, and the complement is a byte. -/
theorem byte_complement_twice : ∀ x, x < 256 →
    (((x ^^^ 0xFF) % 256) ^^^ 0xFF) % 256 = x ∧ (x ^^^ 0xFF) % 256 < 256 ∧
    (x ^^^ 0xFF) % 256 = x ^^^ 0xFF := by
  decide

/-- A read of a well-formed packet gives a byte; past the end the embedding reads 0. -/
theorem getD_byte (packet : List Nat) (hbytes : ∀ v ∈ packet, v < 256) (i : Nat) :
    packet.getD i 0 < 256 := by
  rw [List.getD_eq_getElem?_getD]
  cases h : packet[i]? with
  | none => simp
  | some v =>
    simp only [Option.getD_some]
    exact hbytes v (List.getElem?_mem h)

/-- The statement packet[i] ^= 0xFF keeps the length, complements byte i and leaves the
other bytes. -/
theorem xor_ff_spec (packet : List Nat) (i : Nat) :
    (xor_ff packet i).length = packet.length ∧
    (i < packet.length → (xor_ff packet i).getD i 0 = (packet.getD i 0 ^^^ 0xFF) % 256) ∧
    (∀ j, j ≠ i → (xor_ff packet i)[j]? = packet[j]?) ∧
    (∀ j, j ≠ i → (xor_ff packet i).getD j 0 = packet.getD j 0) := by
  refine ⟨by simp [xor_ff], ?_, ?_, ?_⟩
  · intro h
    simp [xor_ff, List.getElem?_set_self h]
  · intro j hj
    simp [xor_ff, List.getElem?_set_ne (Ne.symm hj)]
  · intro j hj
    simp [xor_ff, List.getElem?_set_ne (Ne.symm hj)]

/-- A well-formed packet stays well-formed under packet[i] ^= 0xFF. -/
theorem xor_ff_bytes (packet : List Nat) (i : Nat) (hbytes : ∀ v ∈ packet, v < 256) :
    ∀ v ∈ xor_ff packet i, v < 256 := by
  intro v hv
  unfold xor_ff at hv
  rcases List.mem_or_eq_of_mem_set hv with h | h
  · exact hbytes v h
  · rw [h]
    exact Nat.mod_lt _ (by decide)

/-- The packet after the three statements of lines 160-162: same length, bytes 0x0C to
0x0E complemented, every other byte as delivered, still well-formed. -/
theorem complemented_spec (packet : List Nat) (hlen : 15 ≤ packet.length)
    (hbytes : ∀ v ∈ packet, v < 256) :
    (xor_ff (xor_ff (xor_ff packet 0x0C) 0x0D) 0x0E).length = packet.length ∧
    (∀ off, off = 0x0C ∨ off = 0x0D ∨ off = 0x0E →
      (xor_ff (xor_ff (xor_ff packet 0x0C) 0x0D) 0x0E).getD off 0
        = (packet.getD off 0 ^^^ 0xFF) % 256) ∧
    (∀ j, j ≠ 0x0C → j ≠ 0x0D → j ≠ 0x0E →
      (xor_ff (xor_ff (xor_ff packet 0x0C) 0x0D) 0x0E)[j]? = packet[j]?) ∧
    (∀ v ∈ xor_ff (xor_ff (xor_ff packet 0x0C) 0x0D) 0x0E, v < 256) := by
  obtain ⟨l1, s1, n1, d1⟩ := xor_ff_spec packet 0x0C
  obtain ⟨l2, s2, n2, d2⟩ := xor_ff_spec (xor_ff packet 0x0C) 0x0D
  obtain ⟨l3, s3, n3, d3⟩ := xor_ff_spec (xor_ff (xor_ff packet 0x0C) 0x0D) 0x0E
  refine ⟨by rw [l3, l2, l1], ?_, ?_, ?_⟩
  · rintro off (rfl | rfl | rfl)
    · rw [d3 _ (by decide), d2 _ (by decide), s1 (by omega)]
    · rw [d3 _ (by decide), s2 (by omega), d1 _ (by decide)]
    · rw [s3 (by omega), d2 _ (by decide), d1 _ (by decide)]
  · intro j h1 h2 h3
    rw [n3 j h3, n2 j h2, n1 j h1]
  · exact xor_ff_bytes _ _ (xor_ff_bytes _ _ (xor_ff_bytes _ _ hbytes))

/-- After lines 160-162 the test of a bit of bytes 0x0C to 0x0E succeeds exactly when the
bit is clear in the packet as delivered. -/
theorem test_mask_complemented (packet : List Nat) (hlen : 15 ≤ packet.length)
    (hbytes : ∀ v ∈ packet, v < 256) (off m : Nat)
    (hoff : off = 0x0C ∨ off = 0x0D ∨ off = 0x0E) (hm : m ∈ [1, 2, 4, 8, 16, 32, 64, 128]) :
    test_mask (xor_ff (xor_ff (xor_ff packet 0x0C) 0x0D) 0x0E) off m
      = decide (packet.getD off 0 &&& m = 0) := by
  unfold test_mask
  rw [(complemented_spec packet hlen hbytes).2.1 off hoff]
  exact byte_complement_test _ (getD_byte packet hbytes off) m hm

/-- The device after the handler: only its decoded state changes, the hat bytes are
zero, and each button is pressed exactly when the bit the decode table gives for it is
clear in the packet as delivered; the packet afterwards is the complemented one. -/
theorem packet_handler_spec (device : hidpad_wiiupro_data) (packet : List Nat) (size : Nat)
    (hlen : 15 ≤ packet.length) (hbytes : ∀ v ∈ packet, v < 256) :
    ∃ d1, hidpad_wiiupro_packet_handler (some device) packet size
        = (some d1, xor_ff (xor_ff (xor_ff packet 0x0C) 0x0D) 0x0E) ∧
      d1 = { device with data := d1.data } ∧ d1.data.hatvalue = [0, 0, 0, 0] ∧
      ∀ k : button, k.pressed d1.data.btn = decide (packet.getD k.offset 0 &&& k.mask = 0) := by
  refine ⟨_, rfl, rfl, rfl, ?_⟩
  intro k
  cases k <;>
    exact test_mask_complemented packet hlen hbytes _ _ (by decide) (by decide)

/-- Two decoded button states that agree on all 17 buttons are the same. -/
theorem wiiupro_buttons_ext (s t : wiiupro_buttons)
    (h : ∀ k : button, k.pressed s = k.pressed t) : s = t := by
  have h1 := h button.a
  have h2 := h button.b
  have h3 := h button.x
  have h4 := h button.y
  have h5 := h button.l
  have h6 := h button.r
  have h7 := h button.zl
  have h8 := h button.zr
  have h9 := h button.minus
  have h10 := h button.plus
  have h11 := h button.l3
  have h12 := h button.r3
  have h13 := h button.home
  have h14 := h button.left
  have h15 := h button.right
  have h16 := h button.up
  have h17 := h button.down
  cases s
  cases t
  simp only [button.pressed] at h1 h2 h3 h4 h5 h6 h7 h8 h9 h10 h11 h12 h13 h14 h15 h16 h17
  simp only [wiiupro_buttons.mk.injEq]
  exact ⟨h1, h2, h3, h4, h5, h6, h7, h8, h9, h10, h11, h12, h13, h14, h15, h16, h17⟩

/-- An OR over the entries of a list that pass a test is the OR over the filtered list. -/
theorem foldl_or_filter (f : button → Nat) (p : button → Bool) (l : List button) :
    ∀ acc : Nat, l.foldl (fun acc k => acc ||| (if p k then f k else 0)) acc
      = (l.filter p).foldl (fun acc k => acc ||| f k) acc := by
  induction l with
  | nil =>
    intro acc
    rfl
  | cons k rest ih =>
    intro acc
    cases hp : p k
    · simp [List.filter, hp, ih]
    · simp [List.filter, hp, ih]

/-- The value hidpad_wiiupro_get_buttons returns on a present device: the OR of
UINT64_C(1) << id over the buttons its decoded state holds as pressed. -/
theorem get_buttons_eq (ids : joypad_ids) (device : hidpad_wiiupro_data) :
    hidpad_wiiupro_get_buttons ids (some device)
      = (button.all.filter (fun k => k.pressed device.data.btn)).foldl
          (fun acc k => acc ||| shifted_one (k.id ids)) 0 := by
  rw [← foldl_or_filter (fun k => shifted_one (k.id ids)) (fun k => k.pressed device.data.btn)]
  rfl

set_option maxRecDepth 100000 in
/-- Byte 0x0C built for seven flags is a byte whose seven bits are clear exactly for the
flagged buttons. -/
theorem byte_0C_spec : ∀ right down l minus home plus r : Bool,
    byte_0C right down l minus home plus r < 256 ∧
    decide (byte_0C right down l minus home plus r &&& 0x80 = 0) = right ∧
    decide (byte_0C right down l minus home plus r &&& 0x40 = 0) = down ∧
    decide (byte_0C right down l minus home plus r &&& 0x20 = 0) = l ∧
    decide (byte_0C right down l minus home plus r &&& 0x10 = 0) = minus ∧
    decide (byte_0C right down l minus home plus r &&& 0x08 = 0) = home ∧
    decide (byte_0C right down l minus home plus r &&& 0x04 = 0) = plus ∧
    decide (byte_0C right down l minus home plus r &&& 0x02 = 0) = r := by
  decide

set_option maxRecDepth 100000 in
/-- Byte 0x0D built for eight flags is a byte whose eight bits are clear exactly for the
flagged buttons. -/
theorem byte_0D_spec : ∀ zl b y a x zr left up : Bool,
    byte_0D zl b y a x zr left up < 256 ∧
    decide (byte_0D zl b y a x zr left up &&& 0x80 = 0) = zl ∧
    decide (byte_0D zl b y a x zr left up &&& 0x40 = 0) = b ∧
    decide (byte_0D zl b y a x zr left up &&& 0x20 = 0) = y ∧
    decide (byte_0D zl b y a x zr left up &&& 0x10 = 0) = a ∧
    decide (byte_0D zl b y a x zr left up &&& 0x08 = 0) = x ∧
    decide (byte_0D zl b y a x zr left up &&& 0x04 = 0) = zr ∧
    decide (byte_0D zl b y a x zr left up &&& 0x02 = 0) = left ∧
    decide (byte_0D zl b y a x zr left up &&& 0x01 = 0) = up := by
  decide

/-- Byte 0x0E built for two flags is a byte whose two low bits are clear exactly for the
flagged buttons. -/
theorem byte_0E_spec : ∀ l3 r3 : Bool,
    byte_0E l3 r3 < 256 ∧
    decide (byte_0E l3 r3 &&& 0x02 = 0) = l3 ∧
    decide (byte_0E l3 r3 &&& 0x01 = 0) = r3 := by
  decide

/-- The packet built for a wanted set of buttons has 15 bytes, is well-formed, and has
the bit of each button clear exactly when the button is wanted. -/
theorem wanted_packet_spec (want : button → Bool) :
    (wanted_packet want).length = 15 ∧ (∀ v ∈ wanted_packet want, v < 256) ∧
    ∀ k : button, decide ((wanted_packet want).getD k.offset 0 &&& k.mask = 0) = want k := by
  have hC := byte_0C_spec (want button.right) (want button.down) (want button.l)
    (want button.minus) (want button.home) (want button.plus) (want button.r)
  have hD := byte_0D_spec (want button.zl) (want button.b) (want button.y) (want button.a)
    (want button.x) (want button.zr) (want button.left) (want button.up)
  have hE := byte_0E_spec (want button.l3) (want button.r3)
  have g12 : (wanted_packet want).getD 0x0C 0
      = byte_0C (want button.right) (want button.down) (want button.l) (want button.minus)
          (want button.home) (want button.plus) (want button.r) := rfl
  have g13 : (wanted_packet want).getD 0x0D 0
      = byte_0D (want button.zl) (want button.b) (want button.y) (want button.a)
          (want button.x) (want button.zr) (want button.left) (want button.up) := rfl
  have g14 : (wanted_packet want).getD 0x0E 0 = byte_0E (want button.l3) (want button.r3) := rfl
  refine ⟨rfl, ?_, ?_⟩
  · intro v hv
    simp only [wanted_packet, List.mem_append, List.mem_replicate, List.mem_cons,
      List.mem_singleton, List.not_mem_nil, or_false] at hv
    rcases hv with ⟨-, rfl⟩ | rfl | rfl | rfl
    · decide
    · exact hC.1
    · exact hD.1
    · exact hE.1
  · intro k
    cases k
    · exact g14 ▸ hE.2.2
    · exact g14 ▸ hE.2.1
    · exact g12 ▸ hC.2.2.2.2.2.2.1
    · exact g12 ▸ hC.2.2.2.2.1
    · exact g13 ▸ hD.2.2.2.2.2.2.1
    · exact g13 ▸ hD.2.1
    · exact g12 ▸ hC.2.2.2.2.2.2.2
    · exact g12 ▸ hC.2.2.2.1
    · exact g13 ▸ hD.2.2.2.2.2.1
    · exact g13 ▸ hD.2.2.2.2.1
    · exact g13 ▸ hD.2.2.1
    · exact g13 ▸ hD.2.2.2.1
    · exact g13 ▸ hD.2.2.2.2.2.2.2.1
    · exact g12 ▸ hC.2.1
    · exact g13 ▸ hD.2.2.2.2.2.2.2.2
    · exact g12 ▸ hC.2.2.1
    · exact g12 ▸ hC.2.2.2.2.2.1

/-- C17: for every device and every well-formed packet of at least 15 bytes, after
hidpad_wiiupro_packet_handler each of the 17 buttons is pressed exactly when its bit of
the decode table (button.offset, button.mask) is clear in the packet as delivered, the hat
bytes are zero, and so the decoded state is the same for any other device and packet
with the same bytes 0x0C, 0x0D, 0x0E; hidpad_wiiupro_get_buttons then returns the OR of
UINT64_C(1) << id over exactly those buttons, 0 when every byte is 0xFF and 0 for an
absent device.  The 17 positions are pairwise distinct and every set of buttons is
produced by some 15-byte packet. -/
theorem hidpad_wiiupro_decode_table (ids : joypad_ids) (device : hidpad_wiiupro_data)
    (packet : List Nat) (size : Nat) (hlen : 15 ≤ packet.length)
    (hbytes : ∀ v ∈ packet, v < 256) :
    (∃ d1, (hidpad_wiiupro_packet_handler (some device) packet size).1 = some d1 ∧
      (∀ k : button, k.pressed d1.data.btn = true ↔ packet.getD k.offset 0 &&& k.mask = 0) ∧
      d1.data.hatvalue = [0, 0, 0, 0] ∧
      (∀ (device2 : hidpad_wiiupro_data) (packet2 : List Nat) (size2 : Nat),
        15 ≤ packet2.length → (∀ v ∈ packet2, v < 256) →
        packet2.getD 0x0C 0 = packet.getD 0x0C 0 → packet2.getD 0x0D 0 = packet.getD 0x0D 0 →
        packet2.getD 0x0E 0 = packet.getD 0x0E 0 →
        ∃ d2, (hidpad_wiiupro_packet_handler (some device2) packet2 size2).1 = some d2 ∧
          d2.data = d1.data) ∧
      hidpad_wiiupro_get_buttons ids (some d1)
        = (button.all.filter (fun k => decide (packet.getD k.offset 0 &&& k.mask = 0))).foldl
            (fun acc k => acc ||| shifted_one (k.id ids)) 0 ∧
      ((∀ v ∈ packet, v = 0xFF) → hidpad_wiiupro_get_buttons ids (some d1) = 0)) ∧
    (∀ k1 k2 : button, k1.offset = k2.offset → k1.mask = k2.mask → k1 = k2) ∧
    (button.all.Nodup ∧ button.all.length = 17 ∧ ∀ k : button, k ∈ button.all) ∧
    (∀ want : button → Bool, ∃ d,
      (hidpad_wiiupro_packet_handler (some device) (wanted_packet want) size).1 = some d ∧
      (wanted_packet want).length = 15 ∧ (∀ v ∈ wanted_packet want, v < 256) ∧
      ∀ k : button, k.pressed d.data.btn = want k) ∧
    hidpad_wiiupro_get_buttons ids none = 0 := by
  obtain ⟨d1, hrun, -, hhat, hpressed⟩ := packet_handler_spec device packet size hlen hbytes
  have hfilter : (fun k : button => k.pressed d1.data.btn)
      = (fun k : button => decide (packet.getD k.offset 0 &&& k.mask = 0)) := by
    funext k
    exact hpressed k
  have hget := get_buttons_eq ids d1
  rw [hfilter] at hget
  refine ⟨⟨d1, by rw [hrun], ?_, hhat, ?_, hget, ?_⟩, by decide, by decide, ?_, rfl⟩
  · intro k
    rw [hpressed k]
    exact decide_eq_true_iff
  · intro device2 packet2 size2 hlen2 hbytes2 e12 e13 e14
    obtain ⟨d2, hrun2, -, hhat2, hpressed2⟩ :=
      packet_handler_spec device2 packet2 size2 hlen2 hbytes2
    refine ⟨d2, by rw [hrun2], ?_⟩
    have hbtn : d2.data.btn = d1.data.btn := by
      apply wiiupro_buttons_ext
      intro k
      rw [hpressed2 k, hpressed k]
      cases k <;> simp only [button.offset, e12, e13, e14]
    have hd : ∀ (u w : wiiupro), u.hatvalue = w.hatvalue → u.btn = w.btn → u = w := by
      intro u w h1 h2
      cases u
      cases w
      simp only at h1 h2
      rw [h1, h2]
    exact hd _ _ (hhat2.trans hhat.symm) hbtn
  · intro hall
    rw [hget]
    have hnone : ∀ k : button, decide (packet.getD k.offset 0 &&& k.mask = 0) = false := by
      intro k
      have hoff : k.offset < packet.length := by
        cases k <;> simp only [button.offset] <;> omega
      have hval : packet.getD k.offset 0 = 0xFF := by
        rw [List.getD_eq_getElem?_getD, List.getElem?_eq_getElem hoff, Option.getD_some]
        exact hall _ (List.getElem_mem hoff)
      rw [hval]
      cases k <;> decide
    have hempty : button.all.filter
        (fun k => decide (packet.getD k.offset 0 &&& k.mask = 0)) = [] := by
      rw [List.filter_eq_nil_iff]
      intro k _
      rw [hnone k]
      exact Bool.false_ne_true
    rw [hempty]
    rfl
  · intro want
    obtain ⟨hl, hb, hw⟩ := wanted_packet_spec want
    obtain ⟨d, hrund, -, -, hpd⟩ :=
      packet_handler_spec device (wanted_packet want) size (by rw [hl]) hb
    refine ⟨d, by rw [hrund], hl, hb, ?_⟩
    intro k
    rw [hpd k, hw k]

/-- C17 at a concrete packet: sample_packet has bit 0x08 of byte 0x0C (home) and bit 0x10
of byte 0x0D (A) clear and every other bit of the three bytes set, so exactly home and A
are pressed and the query returns the OR of their two id bits. -/
theorem hidpad_wiiupro_decode_table_witness :
    ∃ d1, (hidpad_wiiupro_packet_handler (some sample_device) sample_packet 16).1 = some d1 ∧
      (∀ k : button, k.pressed d1.data.btn = true ↔ k = button.a ∨ k = button.home) ∧
      hidpad_wiiupro_get_buttons sample_ids (some d1) = 2 ^ 8 ||| 2 ^ 40 :=
  match (hidpad_wiiupro_decode_table sample_ids sample_device sample_packet 16 (by decide)
      (by decide)).1 with
  | ⟨d1, hrun, _, _, _, _, _⟩ =>
    ⟨d1, hrun, by
      have hd : d1 = ((hidpad_wiiupro_packet_handler (some sample_device) sample_packet 16).1).get
          rfl := by
        apply Option.some.inj
        rw [← hrun]
        rfl
      subst hd
      decide, by
      have hd : d1 = ((hidpad_wiiupro_packet_handler (some sample_device) sample_packet 16).1).get
          rfl := by
        apply Option.some.inj
        rw [← hrun]
        rfl
      subst hd
      decide⟩

/-- Every button's position in the decode table is one of the three bytes and a single
bit. -/
theorem button_position (k : button) :
    (k.offset = 0x0C ∨ k.offset = 0x0D ∨ k.offset = 0x0E) ∧
    k.mask ∈ [1, 2, 4, 8, 16, 32, 64, 128] := by
  cases k <;> decide

/-- A read inside a list, as an optional element. -/
theorem getElem?_eq_some_getD (l : List Nat) (j : Nat) (h : j < l.length) :
    l[j]? = some (l.getD j 0) := by
  rw [List.getD_eq_getElem?_getD, List.getElem?_eq_getElem h, Option.getD_some]

/-- C20: for every device and every well-formed packet of at least 15 bytes, the handler
leaves the packet with the same length, bytes 0x0C, 0x0D and 0x0E complemented (XOR
0xFF) and every other byte unchanged; handling the packet a second time restores the
bytes as delivered, and the second call decodes for each of the 17 buttons the opposite
of what the first call decoded. -/
theorem hidpad_wiiupro_packet_complement (device : hidpad_wiiupro_data) (packet : List Nat)
    (size : Nat) (hlen : 15 ≤ packet.length) (hbytes : ∀ v ∈ packet, v < 256) :
    ∃ d1 p1 d2 p2,
      hidpad_wiiupro_packet_handler (some device) packet size = (some d1, p1) ∧
      hidpad_wiiupro_packet_handler (some d1) p1 size = (some d2, p2) ∧
      p1.length = packet.length ∧
      (∀ off, off = 0x0C ∨ off = 0x0D ∨ off = 0x0E →
        p1.getD off 0 = packet.getD off 0 ^^^ 0xFF) ∧
      (∀ j, j ≠ 0x0C → j ≠ 0x0D → j ≠ 0x0E → p1[j]? = packet[j]?) ∧
      p2 = packet ∧
      ∀ k : button, k.pressed d2.data.btn = !(k.pressed d1.data.btn) := by
  obtain ⟨d1, hrun1, -, -, hp1⟩ := packet_handler_spec device packet size hlen hbytes
  obtain ⟨hl1, hc1, hn1, hb1⟩ := complemented_spec packet hlen hbytes
  have hlen1 : 15 ≤ (xor_ff (xor_ff (xor_ff packet 0x0C) 0x0D) 0x0E).length := by
    rw [hl1]
    exact hlen
  obtain ⟨d2, hrun2, -, -, hp2⟩ := packet_handler_spec d1 _ size hlen1 hb1
  obtain ⟨hl2, hc2, hn2, -⟩ := complemented_spec _ hlen1 hb1
  refine ⟨d1, _, d2, _, hrun1, hrun2, hl1, ?_, hn1, ?_, ?_⟩
  · intro off hoff
    rw [hc1 off hoff]
    exact (byte_complement_twice _ (getD_byte packet hbytes off)).2.2
  · apply List.ext_getElem?
    intro j
    by_cases hj : j = 0x0C ∨ j = 0x0D ∨ j = 0x0E
    · have hjlt : j < packet.length := by
        rcases hj with rfl | rfl | rfl <;> omega
      rw [getElem?_eq_some_getD _ j (by rw [hl2, hl1]; exact hjlt),
        getElem?_eq_some_getD packet j hjlt, hc2 j hj, hc1 j hj]
      rw [(byte_complement_twice _ (getD_byte packet hbytes j)).1]
    · have h1 : j ≠ 0x0C := fun h => hj (Or.inl h)
      have h2 : j ≠ 0x0D := fun h => hj (Or.inr (Or.inl h))
      have h3 : j ≠ 0x0E := fun h => hj (Or.inr (Or.inr h))
      rw [hn2 j h1 h2 h3, hn1 j h1 h2 h3]
  · intro k
    obtain ⟨hoff, hm⟩ := button_position k
    rw [hp2 k, hp1 k, hc1 k.offset hoff,
      ← byte_complement_test _ (getD_byte packet hbytes k.offset) k.mask hm]
    simp

/-- C20 at a concrete packet: sample_packet comes back from the handler with bytes 0x0C
to 0x0E complemented (0xF7, 0xEF, 0xFF become 0x08, 0x10, 0x00) and nothing else changed;
a second call restores it, and home, pressed after the first call, is released after the
second. -/
theorem hidpad_wiiupro_packet_complement_witness :
    ∃ d1 d2,
      hidpad_wiiupro_packet_handler (some sample_device) sample_packet 16
        = (some d1, [0xA1, 0x3D, 0, 0, 0, 0, 0, 0, 0, 0, 0, 0, 0x08, 0x10, 0x00, 0x55]) ∧
      hidpad_wiiupro_packet_handler (some d1)
          [0xA1, 0x3D, 0, 0, 0, 0, 0, 0, 0, 0, 0, 0, 0x08, 0x10, 0x00, 0x55] 16
        = (some d2, sample_packet) ∧
      d1.data.btn.home = true ∧ d2.data.btn.home = false :=
  match hidpad_wiiupro_packet_complement sample_device sample_packet 16 (by decide)
      (by decide) with
  | ⟨d1, p1, d2, p2, h1, h2, _, _, _, hp2, hk⟩ => by
    have e1 : hidpad_wiiupro_packet_handler (some sample_device) sample_packet 16
        = (some ((hidpad_wiiupro_packet_handler (some sample_device) sample_packet 16).1.get rfl),
           [0xA1, 0x3D, 0, 0, 0, 0, 0, 0, 0, 0, 0, 0, 0x08, 0x10, 0x00, 0x55]) := by
      decide
    rw [e1] at h1
    simp only [Prod.mk.injEq, Option.some.injEq] at h1
    obtain ⟨hd1, hp1⟩ := h1
    subst hp1
    subst hp2
    refine ⟨d1, d2, ?_, h2, ?_, ?_⟩
    · rw [e1, hd1]
    · rw [← hd1]
      decide
    · have := hk button.home
      simp only [button.pressed] at this
      rw [this, ← hd1]
      decide

end Wiiupro
